import Mathlib

/-!
Verification of the collage/template layout engine of
`src/agents/image-editor-agent/python-server/main.py` (`create_collage` and
`create_collage_template`).  The Python functions are shallowly embedded:
image loading / canvas painting / file IO is external and only the layout
computation (canvas sizing, placement rectangles, validation) is modelled.
Python `int` arithmetic is modelled with `Int`/`Nat` (no overflow in Python),
CPython float arithmetic inside PIL's `thumbnail` is modelled exactly with `ℚ`.
-/

namespace Collage

/-- A decoded source image; the engine only reads its dimensions
(`img.width` / `img.height` in the source). -/
structure SourceImage where
  width : Nat
  height : Nat
deriving DecidableEq, Repr

/-- The six layout strings accepted by `create_collage` (the final `else`
branch of the source rejects every other string, so the accepted set is
exactly this enumeration). -/
inductive Layout where
  | grid
  | horizontal
  | vertical
  | mosaic
  | random
  | custom
deriving DecidableEq, Repr

/-- One placement rectangle: where one source image is pasted on the canvas.
`x`,`y` are the paste coordinates handed to `canvas.paste`. -/
structure Placement where
  x : Int
  y : Int
  width : Nat
  height : Nat
deriving DecidableEq, Repr

/-- The layout-relevant part of a successful `create_collage` /
`create_collage_template` call: the canvas size and the pasted rectangles in
paste order. -/
structure LayoutResult where
  canvasWidth : Int
  canvasHeight : Int
  placements : List Placement
deriving DecidableEq, Repr

/-- Result of a call: either a layout or a raised `ValueError` message. -/
inductive Res (α : Type) where
  | ok (val : α)
  | err (msg : String)
deriving DecidableEq, Repr

/-- `true` exactly on the `ok` constructor. -/
def Res.isOk {α : Type} [DecidableEq α] : Res α → Bool
  | .ok _ => true
  | .err _ => false

/-- Number of placements of a result (`0` for an error). -/
def placementCount : Res LayoutResult → Nat
  | .ok r => r.placements.length
  | .err _ => 0

/-! ### The pseudo-random source

The source uses the process-global generator of Python's `random` module.
The module is an external collaborator; it is modelled as an injectable
stream of raw nonnegative draws together with a cursor (the spec itself
requires the random source to be swappable/injectable).  `random.randint a b`
raises `ValueError` when the range is empty and otherwise returns a value in
`[a, b]`, consuming one raw draw. -/

structure RNG where
  stream : Nat → Nat
  cursor : Nat

/-- Model of `random.randint(a, b)`: `none` models the `ValueError` raised on
an empty range (`b < a`), otherwise a value in `[a, b]` plus the advanced
generator. -/
def randint (a b : Int) (g : RNG) : Option (Int × RNG) :=
  if b < a then none
  else some (a + ((g.stream g.cursor % ((b - a).toNat + 1) : Nat) : Int),
             ⟨g.stream, g.cursor + 1⟩)

/-- Model of `random.seed(n)`: the generator state becomes a function of the
seed alone (any concrete deterministic mixing function is a faithful model;
the claims only use that the post-seed state is determined by `n`). -/
def seedRNG (n : Int) : RNG :=
  ⟨fun k => (n.natAbs + k + 1) * 2654435761 % 4294967296, 0⟩

/-- The seeding step of the `mosaic` / `random` branches:
`if random_seed: random.seed(random_seed)`.  Python truthiness: seeding is
skipped both for `None` and for the integer `0`. -/
def seedFor (seed : Option Int) (g : RNG) : RNG :=
  match seed with
  | none => g
  | some n => if n = 0 then g else seedRNG n

/-! ### Hex color parsing

`bg_color = tuple(int(background_color[i:i+2], 16) for i in (1, 3, 5))`.
Strings are modelled as `List Char`.  `int(s, 16)` accepts the full Python
integer-literal grammar: surrounding whitespace, an optional single sign, an
optional `0x`/`0X` prefix and a nonempty hex digit run with single
underscores between digits — so slices such as `"+1"`, `" f"` or `"1_"`-free
`"1 "` parse successfully and may even be negative.  The model below follows
that grammar over ASCII characters (the non-ASCII digit and space characters
CPython additionally accepts are outside the embedding's character model). -/

def isHexDigit (c : Char) : Bool :=
  c.isDigit || ('a' ≤ c && c ≤ 'f') || ('A' ≤ c && c ≤ 'F')

def hexDigitVal (c : Char) : Nat :=
  if c.isDigit then c.toNat - '0'.toNat
  else if 'a' ≤ c && c ≤ 'f' then c.toNat - 'a'.toNat + 10
  else c.toNat - 'A'.toNat + 10

/-- The ASCII whitespace characters `int()` strips around a literal. -/
def pySpace (c : Char) : Bool :=
  c = ' ' || c = '\t' || c = '\n' || c = '\r' || c = '\x0b' || c = '\x0c'

/-- Strip ASCII whitespace from both ends, as `int()` does before parsing. -/
def stripPy (cs : List Char) : List Char :=
  ((cs.dropWhile pySpace).reverse.dropWhile pySpace).reverse

/-- Continuation of a hex digit run, with single underscores allowed between
digits (`1_2` is legal, `1__2`, `_1` and `1_` are not). -/
def hexTail (acc : Nat) : List Char → Option Nat
  | [] => some acc
  | c :: rest =>
    if c = '_' then
      match rest with
      | [] => none
      | c2 :: rest2 =>
        if isHexDigit c2 then hexTail (16 * acc + hexDigitVal c2) rest2 else none
    else if isHexDigit c then hexTail (16 * acc + hexDigitVal c) rest
    else none

/-- A hex digit run: nonempty and starting with a digit. -/
def pyHexDigits : List Char → Option Nat
  | [] => none
  | c :: rest => if isHexDigit c then hexTail (hexDigitVal c) rest else none

/-- The unsigned part after the sign: an optional `0x`/`0X` prefix — after
which a single leading underscore is also legal (`0x_ff`) but an empty digit
run is not (`0x` alone raises) — followed by a digit run. -/
def pyIntHexCore : List Char → Option Nat
  | c0 :: c1 :: rest =>
    if c0 = '0' ∧ (c1 = 'x' ∨ c1 = 'X') then
      match rest with
      | [] => none
      | _ :: _ => hexTail 0 rest
    else pyHexDigits (c0 :: c1 :: rest)
  | cs => pyHexDigits cs

/-- Model of Python `int(s, 16)` over ASCII strings; `none` models the
raised `ValueError`.  Checked against CPython on the slice shapes the color
parser produces (signs, spaces, prefixes, underscores, empty slices). -/
def pyIntHex (cs : List Char) : Option Int :=
  match stripPy cs with
  | [] => none
  | c :: rest =>
    if c = '+' then (pyIntHexCore rest).map (fun v => (v : Int))
    else if c = '-' then (pyIntHexCore rest).map (fun v => -(v : Int))
    else (pyIntHexCore (c :: rest)).map (fun v => (v : Int))

/-- Python slice `cs[a:b]` for `0 ≤ a ≤ b` (clamped at the end of the list,
exactly like Python slicing). -/
def pySlice (cs : List Char) (a b : Nat) : List Char :=
  (cs.drop a).take (b - a)

/-- The source's color conversion: parse the three slices `[1:3]`, `[3:5]`,
`[5:7]` as `int(-, 16)`.  The first character and everything from index 7 on
are never inspected, and each component may be any integer a two-character
int literal can denote (signed slices like `"+1"` or `"-1"` included). -/
def parseHexColor (cs : List Char) : Option (Int × Int × Int) := do
  let r ← pyIntHex (pySlice cs 1 3)
  let g ← pyIntHex (pySlice cs 3 5)
  let b ← pyIntHex (pySlice cs 5 7)
  some (r, g, b)

/-- Written from the spec's words, for comparison with `parseHexColor`: a
well-formed `#RRGGBB` color is `#` followed by exactly six hex digits. -/
def specHexWellFormed (cs : List Char) : Bool :=
  cs.length == 7 && cs.take 1 == ['#'] && (cs.drop 1).all isHexDigit

/-! ### PIL `Image.thumbnail` (dimension computation)

`img.thumbnail((bw, bh))` shrinks (never enlarges) to fit the box, keeping
the aspect ratio. The external library's rounding is modelled exactly, with
`ℚ` standing in for CPython floats (exact at these magnitudes): if the image
already fits it is untouched; otherwise the fitted dimension is the floor or
the ceiling of the exact aspect-preserving value, whichever is closer to the
exact aspect (floor on ties), and at least `1`. -/

/-- `round_aspect` of PIL: `max(min(floor q, ceil q, key=key), 1)`; Python's
`min` keeps its first argument on key ties. -/
def roundAspect (q : ℚ) (key : Int → ℚ) : Int :=
  max (if key ⌊q⌋ ≤ key ⌈q⌉ then ⌊q⌋ else ⌈q⌉) 1

/-- Resulting dimensions of `img.thumbnail((boxW, boxH))` for a `w × h`
image. -/
def thumbFit (w h boxW boxH : Nat) : Nat × Nat :=
  if w ≤ boxW ∧ h ≤ boxH then (w, h)
  else
    let aspect : ℚ := (w : ℚ) / (h : ℚ)
    if aspect ≤ (boxW : ℚ) / (boxH : ℚ) then
      ((roundAspect ((boxH : ℚ) * aspect)
          (fun n => |aspect - (n : ℚ) / (boxH : ℚ)|)).toNat, boxH)
    else
      (boxW,
       (roundAspect ((boxW : ℚ) / aspect)
          (fun n => if n = 0 then 0 else |aspect - (boxW : ℚ) / (n : ℚ)|)).toNat)

/-! ### Canvas sizing helpers -/

/-- Python truthiness of the optional integer parameters `canvas_width` /
`canvas_height`: falsy exactly for `None` and `0`. -/
def truthyI : Option Int → Bool
  | none => false
  | some n => n != 0

/-- Canvas sizing of the `mosaic` and `random` branches:
`if not canvas_width or not canvas_height:` both fall back to
`max_width × max_width`, otherwise the supplied values are kept. -/
def effectiveCanvas (cwo cho : Option Int) (maxWidth : Nat) : Int × Int :=
  if !truthyI cwo || !truthyI cho then ((maxWidth : Int), (maxWidth : Int))
  else (cwo.getD 0, cho.getD 0)

/-- `int(np.ceil(np.sqrt(n)))`, modelled exactly (the float computation is
exact at every realistic image count). -/
def ceilSqrt (n : Nat) : Nat :=
  if Nat.sqrt n * Nat.sqrt n == n then Nat.sqrt n else Nat.sqrt n + 1

/-- `int(np.ceil(n / d))` for positive `d`, modelled exactly. -/
def ceilDiv (n d : Nat) : Nat :=
  (n + d - 1) / d

/-- `max(img.width for img in images)`; on the nonempty lists reaching it
this is the maximum width (Python raises on an empty generator, never hit
because `len(images) ≥ 2` was checked). -/
def maxImgWidth (imgs : List SourceImage) : Nat :=
  imgs.foldl (fun a i => max a i.width) 0

/-- `max(img.height for img in images)`, as `maxImgWidth`. -/
def maxImgHeight (imgs : List SourceImage) : Nat :=
  imgs.foldl (fun a i => max a i.height) 0

/-! ### Grid / horizontal / vertical placement

The three modes share one paste loop in the source:
`row = i // cols; col = i % cols;
 x = col * (max_img_width + spacing); y = row * (max_img_height + spacing);
 x_offset = (max_img_width - img.width) // 2; ...`.
All quantities are nonnegative and `img.width ≤ max_img_width` at every
call site (the cell is a maximum), so `Nat` subtraction and division model
Python's `-` and `//` faithfully here. -/

def gridPlaceAux (cols cellW cellH spacing : Nat) : Nat → List SourceImage → List Placement
  | _, [] => []
  | i, img :: rest =>
    { x := ((i % cols) * (cellW + spacing) + (cellW - img.width) / 2 : Nat)
      y := ((i / cols) * (cellH + spacing) + (cellH - img.height) / 2 : Nat)
      width := img.width
      height := img.height } :: gridPlaceAux cols cellW cellH spacing (i + 1) rest

def gridPlace (imgs : List SourceImage) (cols cellW cellH spacing : Nat) : List Placement :=
  gridPlaceAux cols cellW cellH spacing 0 imgs

/-! ### Mosaic / random placement -/

/-- The overlap test of the mosaic branch, for a drawn `(x, y)` of a `w × h`
image against one previously accepted placement `p` (`spacing` added on one
side of each axis pair, exactly as in the source conditionals). -/
def overlaps (spacing : Nat) (x y : Int) (w h : Nat) (p : Placement) : Bool :=
  decide (x < p.x + p.width + spacing ∧ x + w + spacing > p.x ∧
          y < p.y + p.height + spacing ∧ y + h + spacing > p.y)

/-- The `while attempts < 50` search of the mosaic branch, with `fuel` the
number of draws still allowed (`50` initially).  Each iteration draws
`x ∈ [0, cw - w]`, `y ∈ [0, ch - h]`; a non-overlapping draw is accepted at
once, and the final allowed draw is accepted even when it overlaps.  `none`
models the `ValueError` of an empty draw range (the `fuel = 0` case is never
reached from `fuel = 50`). -/
def mosaicFind (cw ch : Int) (spacing : Nat) (img : SourceImage)
    (placed : List Placement) : Nat → RNG → Option ((Int × Int) × RNG)
  | 0, _ => none
  | fuel + 1, g =>
    match randint 0 (cw - img.width) g with
    | none => none
    | some (x, g) =>
      match randint 0 (ch - img.height) g with
      | none => none
      | some (y, g) =>
        if placed.any (overlaps spacing x y img.width img.height) then
          match fuel with
          | 0 => some ((x, y), g)
          | _ + 1 => mosaicFind cw ch spacing img placed fuel g
        else some ((x, y), g)

/-- The per-image loop of the mosaic branch: images are processed in order,
each accepted rectangle is appended to `positions` and pasted. -/
def mosaicRun (cw ch : Int) (spacing : Nat) :
    List SourceImage → List Placement → RNG → Res (List Placement)
  | [], placed, _ => .ok placed
  | img :: rest, placed, g =>
    match mosaicFind cw ch spacing img placed 50 g with
    | none => .err "empty range for randrange()"
    | some ((x, y), g) =>
      mosaicRun cw ch spacing rest
        (placed ++ [⟨x, y, img.width, img.height⟩]) g

/-- The `random` branch: one draw per image, no overlap check. -/
def randomRun (cw ch : Int) :
    List SourceImage → List Placement → RNG → Res (List Placement)
  | [], placed, _ => .ok placed
  | img :: rest, placed, g =>
    match randint 0 (cw - img.width) g with
    | none => .err "empty range for randrange()"
    | some (x, g) =>
      match randint 0 (ch - img.height) g with
      | none => .err "empty range for randrange()"
      | some (y, g) =>
        randomRun cw ch rest (placed ++ [⟨x, y, img.width, img.height⟩]) g

/-- The `custom` branch paste loop: `zip(images, custom_positions)`, each
image pasted verbatim at its position (the `.get` defaults never fire: the
positions are modelled as present `x`/`y` pairs, as the spec's data model
states). -/
def customPlace : List SourceImage → List (Int × Int) → List Placement
  | img :: imgs, (x, y) :: ps =>
    ⟨x, y, img.width, img.height⟩ :: customPlace imgs ps
  | _, _ => []

/-! ### `create_collage` -/

/-- The layout computation of `create_collage` over already-loaded images:
the `len < 2` validation, the per-mode canvas sizing, the per-mode paste
loop.  (File IO, the actual pixel pasting and the final JSON assembly are
external.) -/
def computeLayout (imgs : List SourceImage) (layout : Layout) (spacing : Nat)
    (cwo cho : Option Int) (maxWidth : Nat)
    (customPositions : Option (List (Int × Int)))
    (randomSeed : Option Int) (g : RNG) : Res LayoutResult :=
  if imgs.length < 2 then
    .err "At least 2 images are required for a collage"
  else
    match layout with
    | .grid =>
      let cols := ceilSqrt imgs.length
      let rows := ceilDiv imgs.length cols
      let cellW := maxImgWidth imgs
      let cellH := maxImgHeight imgs
      .ok ⟨(cols * cellW + (cols - 1) * spacing : Nat),
           (rows * cellH + (rows - 1) * spacing : Nat),
           gridPlace imgs cols cellW cellH spacing⟩
    | .horizontal =>
      let cols := imgs.length
      let cellW := maxImgWidth imgs
      let cellH := maxImgHeight imgs
      .ok ⟨(cols * cellW + (cols - 1) * spacing : Nat), (cellH : Nat),
           gridPlace imgs cols cellW cellH spacing⟩
    | .vertical =>
      let rows := imgs.length
      let cellW := maxImgWidth imgs
      let cellH := maxImgHeight imgs
      .ok ⟨(cellW : Nat), (rows * cellH + (rows - 1) * spacing : Nat),
           gridPlace imgs 1 cellW cellH spacing⟩
    | .mosaic =>
      let cw := (effectiveCanvas cwo cho maxWidth).1
      let ch := (effectiveCanvas cwo cho maxWidth).2
      match mosaicRun cw ch spacing imgs [] (seedFor randomSeed g) with
      | .err e => .err e
      | .ok placed => .ok ⟨cw, ch, placed⟩
    | .random =>
      let cw := (effectiveCanvas cwo cho maxWidth).1
      let ch := (effectiveCanvas cwo cho maxWidth).2
      match randomRun cw ch imgs [] (seedFor randomSeed g) with
      | .err e => .err e
      | .ok placed => .ok ⟨cw, ch, placed⟩
    | .custom =>
      match customPositions with
      | none => .err "Custom layout requires custom_positions for each image"
      | some ps =>
        if ps.length ≠ imgs.length then
          .err "Custom layout requires custom_positions for each image"
        else if !truthyI cwo || !truthyI cho then
          .err "Custom layout requires canvas_width and canvas_height"
        else
          .ok ⟨cwo.getD 0, cho.getD 0, customPlace imgs ps⟩

/-- Full `create_collage` pipeline (layout projection): the `len < 2` check,
the load loop's `img.thumbnail((max_width // 2, max_width // 2))` pre-shrink,
the background color conversion, then the per-mode layout.  `bg` is the
`background_color` string as characters. -/
def createCollage (imgs : List SourceImage) (layout : Layout)
    (maxWidth spacing : Nat) (cwo cho : Option Int) (bg : List Char)
    (customPositions : Option (List (Int × Int)))
    (randomSeed : Option Int) (g : RNG) : Res LayoutResult :=
  if imgs.length < 2 then
    .err "At least 2 images are required for a collage"
  else
    let loaded := imgs.map fun img =>
      SourceImage.mk (thumbFit img.width img.height (maxWidth / 2) (maxWidth / 2)).1
        (thumbFit img.width img.height (maxWidth / 2) (maxWidth / 2)).2
    match parseHexColor bg with
    | none => .err "invalid literal for int() with base 16"
    | some _ =>
      computeLayout loaded layout spacing cwo cho maxWidth customPositions randomSeed g

/-! ### `create_collage_template` -/

/-- One template cell `{x, y, width, height}`. -/
structure Cell where
  x : Int
  y : Int
  width : Nat
  height : Nat
deriving DecidableEq, Repr

/-- A template: its canvas size and its fixed cell table. -/
structure TemplateConfig where
  canvasWidth : Int
  canvasHeight : Int
  positions : List Cell
deriving DecidableEq, Repr

/-- The `templates` dictionary of `create_collage_template` (canvas sizes of
`photo_wall`, `storyboard`, `featured` and `polaroid` depend on the
`max_width` parameter). -/
def templates (maxWidth : Nat) : List (String × TemplateConfig) :=
  [("photo_wall",
    ⟨(maxWidth : Int), (maxWidth : Int),
     [⟨50, 50, 300, 300⟩, ⟨400, 50, 300, 300⟩, ⟨750, 50, 300, 300⟩,
      ⟨50, 400, 300, 300⟩, ⟨400, 400, 300, 300⟩, ⟨750, 400, 300, 300⟩]⟩),
   ("storyboard",
    ⟨(maxWidth : Int), 400,
     [⟨20, 20, 180, 180⟩, ⟨220, 20, 180, 180⟩, ⟨420, 20, 180, 180⟩,
      ⟨620, 20, 180, 180⟩, ⟨820, 20, 180, 180⟩, ⟨1020, 20, 180, 180⟩]⟩),
   ("featured",
    ⟨(maxWidth : Int), 600,
     [⟨50, 50, 500, 500⟩, ⟨600, 50, 250, 240⟩, ⟨600, 310, 250, 240⟩,
      ⟨50, 580, 250, 240⟩, ⟨330, 580, 250, 240⟩]⟩),
   ("instagram_grid",
    ⟨900, 900,
     [⟨0, 0, 300, 300⟩, ⟨300, 0, 300, 300⟩, ⟨600, 0, 300, 300⟩,
      ⟨0, 300, 300, 300⟩, ⟨300, 300, 300, 300⟩, ⟨600, 300, 300, 300⟩,
      ⟨0, 600, 300, 300⟩, ⟨300, 600, 300, 300⟩, ⟨600, 600, 300, 300⟩]⟩),
   ("polaroid",
    ⟨(maxWidth : Int), (maxWidth : Int),
     [⟨100, 100, 200, 200⟩, ⟨350, 150, 200, 200⟩, ⟨600, 100, 200, 200⟩,
      ⟨200, 350, 200, 200⟩, ⟨450, 400, 200, 200⟩]⟩)]

/-- The paste loop of `create_collage_template`:
`for i, (img, position) in enumerate(zip(images, positions))` — zip-shortest,
so extra images are dropped and extra cells stay empty.  Each image is
shrunk into its cell by `thumbnail` and centered with the `// 2` offsets
(nonnegative: the shrunk image fits the cell). -/
def templatePlace : List SourceImage → List Cell → List Placement
  | img :: imgs, cell :: cells =>
    { x := cell.x + ((cell.width -
            (thumbFit img.width img.height cell.width cell.height).1) / 2 : Nat)
      y := cell.y + ((cell.height -
            (thumbFit img.width img.height cell.width cell.height).2) / 2 : Nat)
      width := (thumbFit img.width img.height cell.width cell.height).1
      height := (thumbFit img.width img.height cell.width cell.height).2 }
      :: templatePlace imgs cells
  | _, _ => []

/-- Full `create_collage_template` pipeline (layout projection): `len < 2`
validation, background color conversion, template lookup (unknown names
raise), then the zip-shortest paste loop.  The load loop of this function
applies no `max_width` pre-shrink (it only converts to RGB). -/
def createCollageTemplate (imgs : List SourceImage) (template : String)
    (maxWidth : Nat) (bg : List Char) : Res LayoutResult :=
  if imgs.length < 2 then
    .err "At least 2 images are required for a collage"
  else
    match parseHexColor bg with
    | none => .err "invalid literal for int() with base 16"
    | some _ =>
      match (templates maxWidth).lookup template with
      | none => .err "Template not found"
      | some cfg =>
        .ok ⟨cfg.canvasWidth, cfg.canvasHeight, templatePlace imgs cfg.positions⟩

/-! ### Spec-side mosaic procedure

For the refinement claim about the mosaic algorithm, the procedure is also
written from the spec's words: an attempt counter counting up from zero,
up to 50 draws, the first draw passing the clash test accepted, the last
drawn position accepted when all 50 attempts clash.  The clash test is a
parameter, so the spec's wording of the overlap test and the amended wording
can both be instantiated. -/

/-- Clash predicate as the claim words it: the draw's rectangle and the
previously accepted rectangle, each grown by `spacing` on all sides,
intersect. -/
def claimClash (spacing : Nat) (x y : Int) (w h : Nat) (p : Placement) : Bool :=
  decide (x - spacing < p.x + p.width + spacing ∧ p.x - spacing < x + w + spacing ∧
          y - spacing < p.y + p.height + spacing ∧ p.y - spacing < y + h + spacing)

/-- Amended clash predicate: the rectangles come within less than `spacing`
of each other on both axes (equivalently, only one of the two rectangles is
grown by `spacing` on all sides before the intersection test). -/
def sepClash (spacing : Nat) (x y : Int) (w h : Nat) (p : Placement) : Bool :=
  decide (¬(x + w + spacing ≤ p.x ∨ p.x + p.width + spacing ≤ x) ∧
          ¬(y + h + spacing ≤ p.y ∨ p.y + p.height + spacing ≤ y))

/-- Spec-side search for one image: `attempts` made so far counts up;
`remaining` is the structural bound `50 - attempts`. A drawn position with
no clash against any accepted placement is taken at once; the draw of the
50th attempt is taken regardless. -/
def specSearch (clash : Nat → Int → Int → Nat → Nat → Placement → Bool)
    (cw ch : Int) (spacing : Nat) (img : SourceImage) (placed : List Placement) :
    Nat → Nat → RNG → Option ((Int × Int) × RNG)
  | _, 0, _ => none
  | attempts, remaining + 1, g =>
    match randint 0 (cw - img.width) g with
    | none => none
    | some (x, g) =>
      match randint 0 (ch - img.height) g with
      | none => none
      | some (y, g) =>
        if placed.all (fun p => !clash spacing x y img.width img.height p) then
          some ((x, y), g)
        else if attempts + 1 = 50 then some ((x, y), g)
        else specSearch clash cw ch spacing img placed (attempts + 1) remaining g

/-- Spec-side per-image loop: images in order, accepted rectangles appended. -/
def specMosaicRun (clash : Nat → Int → Int → Nat → Nat → Placement → Bool)
    (cw ch : Int) (spacing : Nat) :
    List SourceImage → List Placement → RNG → Option (List Placement × RNG)
  | [], placed, g => some (placed, g)
  | img :: rest, placed, g =>
    match specSearch clash cw ch spacing img placed 0 50 g with
    | none => none
    | some ((x, y), g) =>
      specMosaicRun clash cw ch spacing rest
        (placed ++ [⟨x, y, img.width, img.height⟩]) g

/-- Spec-side mosaic mode: canvas `canvasWidth × canvasHeight` when both are
given and nonzero, else `maxWidth × maxWidth`; generator seeded from the
request's seed; the per-image search run over the images in order. -/
def specMosaicLayout (clash : Nat → Int → Int → Nat → Nat → Placement → Bool)
    (imgs : List SourceImage) (spacing : Nat) (cwo cho : Option Int)
    (maxWidth : Nat) (randomSeed : Option Int) (g : RNG) : Option LayoutResult :=
  let cw := (effectiveCanvas cwo cho maxWidth).1
  let ch := (effectiveCanvas cwo cho maxWidth).2
  match specMosaicRun clash cw ch spacing imgs [] (seedFor randomSeed g) with
  | none => none
  | some (placed, _) => some ⟨cw, ch, placed⟩

/-! ## Lemmas about the pseudo-random draws -/

theorem randint_some {a b : Int} (g : RNG) (h : a ≤ b) :
    ∃ v, randint a b g = some (v, ⟨g.stream, g.cursor + 1⟩) ∧ a ≤ v ∧ v ≤ b := by
  refine ⟨a + ((g.stream g.cursor % ((b - a).toNat + 1) : Nat) : Int), ?_, ?_, ?_⟩
  · unfold randint
    rw [if_neg (not_lt.mpr h)]
  · exact le_add_of_nonneg_right (Int.natCast_nonneg _)
  · have hmod : g.stream g.cursor % ((b - a).toNat + 1) ≤ (b - a).toNat :=
      Nat.lt_succ_iff.mp (Nat.mod_lt _ (Nat.succ_pos _))
    have hcast : ((g.stream g.cursor % ((b - a).toNat + 1) : Nat) : Int) ≤ b - a := by
      calc ((g.stream g.cursor % ((b - a).toNat + 1) : Nat) : Int)
          ≤ ((b - a).toNat : Int) := by exact_mod_cast hmod
        _ = b - a := Int.toNat_of_nonneg (sub_nonneg.mpr h)
    omega

theorem randint_none {a b : Int} (g : RNG) (h : b < a) : randint a b g = none := by
  simp [randint, h]

/-! ## Lemmas about the mosaic search -/

theorem mosaicFind_succ (cw ch : Int) (spacing : Nat) (img : SourceImage)
    (placed : List Placement) (fuel : Nat) (g : RNG) :
    mosaicFind cw ch spacing img placed (fuel + 1) g =
      match randint 0 (cw - img.width) g with
      | none => none
      | some (x, g) =>
        match randint 0 (ch - img.height) g with
        | none => none
        | some (y, g) =>
          if placed.any (overlaps spacing x y img.width img.height) then
            match fuel with
            | 0 => some ((x, y), g)
            | _ + 1 => mosaicFind cw ch spacing img placed fuel g
          else some ((x, y), g) := rfl

theorem mosaicFind_some (cw ch : Int) (spacing : Nat) (img : SourceImage)
    (placed : List Placement) (hw : (img.width : Int) ≤ cw)
    (hh : (img.height : Int) ≤ ch) :
    ∀ fuel, 1 ≤ fuel → ∀ g : RNG,
      ∃ x y g2, mosaicFind cw ch spacing img placed fuel g = some ((x, y), g2) ∧
        0 ≤ x ∧ x + img.width ≤ cw ∧ 0 ≤ y ∧ y + img.height ≤ ch := by
  intro fuel
  induction fuel with
  | zero => omega
  | succ fuel ih =>
    intro _ g
    obtain ⟨x, hx, hx0, hx1⟩ := randint_some g (a := 0) (b := cw - img.width) (by omega)
    obtain ⟨y, hy, hy0, hy1⟩ :=
      randint_some ⟨g.stream, g.cursor + 1⟩ (a := 0) (b := ch - img.height) (by omega)
    by_cases hov : placed.any (overlaps spacing x y img.width img.height) = true
    · rcases fuel with _ | fuel'
      · refine ⟨x, y, ⟨g.stream, g.cursor + 1 + 1⟩, ?_, by omega, by omega, by omega, by omega⟩
        rw [mosaicFind_succ]
        simp only [hx, hy, hov, if_true]
      · obtain ⟨x2, y2, g2, hrec, h0, h1, h2, h3⟩ :=
          ih (by omega) ⟨g.stream, g.cursor + 1 + 1⟩
        refine ⟨x2, y2, g2, ?_, h0, h1, h2, h3⟩
        rw [mosaicFind_succ]
        simp only [hx, hy, hov, if_true]
        exact hrec
    · refine ⟨x, y, ⟨g.stream, g.cursor + 1 + 1⟩, ?_, by omega, by omega, by omega, by omega⟩
      rw [mosaicFind_succ]
      simp only [hx, hy]
      rw [if_neg hov]

theorem mosaicFind_none (cw ch : Int) (spacing fuel : Nat) (img : SourceImage)
    (placed : List Placement) (g : RNG)
    (h : cw < (img.width : Int) ∨ ch < (img.height : Int)) :
    mosaicFind cw ch spacing img placed (fuel + 1) g = none := by
  rcases lt_or_le cw (img.width : Int) with hw | hw
  · have hx : randint 0 (cw - img.width) g = none := randint_none g (by omega)
    simp [mosaicFind, hx]
  · have hh : ch < (img.height : Int) := by omega
    obtain ⟨x, hx, -, -⟩ := randint_some g (a := 0) (b := cw - img.width) (by omega)
    have hy : randint 0 (ch - img.height) (⟨g.stream, g.cursor + 1⟩ : RNG) = none :=
      randint_none _ (by omega)
    simp [mosaicFind, hx, hy]

/-- In-bounds predicate for one placement on a `cw × ch` canvas. -/
def inBounds (cw ch : Int) (p : Placement) : Prop :=
  0 ≤ p.x ∧ p.x + p.width ≤ cw ∧ 0 ≤ p.y ∧ p.y + p.height ≤ ch

instance (cw ch : Int) (p : Placement) : Decidable (inBounds cw ch p) := by
  unfold inBounds; infer_instance

theorem mosaicRun_cons (cw ch : Int) (spacing : Nat) (img : SourceImage)
    (rest : List SourceImage) (placed : List Placement) (g : RNG) :
    mosaicRun cw ch spacing (img :: rest) placed g =
      match mosaicFind cw ch spacing img placed 50 g with
      | none => .err "empty range for randrange()"
      | some ((x, y), g) =>
        mosaicRun cw ch spacing rest
          (placed ++ [⟨x, y, img.width, img.height⟩]) g := rfl

theorem mosaicRun_ok {cw ch : Int} {spacing : Nat} {imgs : List SourceImage}
    (hfits : ∀ img ∈ imgs, (img.width : Int) ≤ cw ∧ (img.height : Int) ≤ ch) :
    ∀ (placed : List Placement) (g : RNG),
      ∃ ps, mosaicRun cw ch spacing imgs placed g = .ok ps ∧
        ps.length = placed.length + imgs.length ∧
        ∀ p ∈ ps, p ∈ placed ∨ inBounds cw ch p := by
  induction imgs with
  | nil =>
    intro placed g
    exact ⟨placed, rfl, by simp [mosaicRun], fun p hp => Or.inl hp⟩
  | cons img rest ih =>
    intro placed g
    obtain ⟨hw, hh⟩ := hfits img (by simp)
    obtain ⟨x, y, g2, hfind, h0, h1, h2, h3⟩ :=
      mosaicFind_some cw ch spacing img placed hw hh 50 (by omega) g
    obtain ⟨ps, hrun, hlen, hmem⟩ :=
      ih (fun i hi => hfits i (by simp [hi])) (placed ++ [⟨x, y, img.width, img.height⟩]) g2
    refine ⟨ps, ?_, ?_, ?_⟩
    · rw [mosaicRun_cons]
      simp only [hfind]
      exact hrun
    · simp at hlen ⊢
      omega
    · intro p hp
      rcases hmem p hp with hmem' | hb
      · rcases List.mem_append.mp hmem' with h | h
        · exact Or.inl h
        · refine Or.inr ?_
          have : p = ⟨x, y, img.width, img.height⟩ := by simpa using h
          subst this
          exact ⟨h0, h1, h2, h3⟩
      · exact Or.inr hb

theorem mosaicRun_err_iff (cw ch : Int) (spacing : Nat) (imgs : List SourceImage) :
    ∀ (placed : List Placement) (g : RNG),
      ((mosaicRun cw ch spacing imgs placed g).isOk = false ↔
        ∃ img ∈ imgs, cw < (img.width : Int) ∨ ch < (img.height : Int)) := by
  induction imgs with
  | nil => intro placed g; simp [mosaicRun, Res.isOk]
  | cons img rest ih =>
    intro placed g
    by_cases hfit : (img.width : Int) ≤ cw ∧ (img.height : Int) ≤ ch
    · obtain ⟨x, y, g2, hfind, -, -, -, -⟩ :=
        mosaicFind_some cw ch spacing img placed hfit.1 hfit.2 50 (by omega) g
      rw [mosaicRun_cons]
      simp only [hfind]
      rw [ih]
      constructor
      · rintro ⟨i, hi, h⟩; exact ⟨i, by simp [hi], h⟩
      · rintro ⟨i, hi, h⟩
        rcases List.mem_cons.mp hi with rfl | hi'
        · exact absurd h (by omega)
        · exact ⟨i, hi', h⟩
    · have h : cw < (img.width : Int) ∨ ch < (img.height : Int) := by
        rcases not_and_or.mp hfit with h | h
        · exact Or.inl (by omega)
        · exact Or.inr (by omega)
      have hfind : mosaicFind cw ch spacing img placed 50 g = none :=
        mosaicFind_none cw ch spacing 49 img placed g h
      rw [mosaicRun_cons]
      simp only [hfind, Res.isOk, true_iff]
      exact ⟨img, by simp, h⟩

/-! ## Lemmas about the `random` placement loop -/

theorem randomRun_cons (cw ch : Int) (img : SourceImage)
    (rest : List SourceImage) (placed : List Placement) (g : RNG) :
    randomRun cw ch (img :: rest) placed g =
      match randint 0 (cw - img.width) g with
      | none => .err "empty range for randrange()"
      | some (x, g) =>
        match randint 0 (ch - img.height) g with
        | none => .err "empty range for randrange()"
        | some (y, g) =>
          randomRun cw ch rest (placed ++ [⟨x, y, img.width, img.height⟩]) g := rfl

theorem randomRun_ok {cw ch : Int} {imgs : List SourceImage}
    (hfits : ∀ img ∈ imgs, (img.width : Int) ≤ cw ∧ (img.height : Int) ≤ ch) :
    ∀ (placed : List Placement) (g : RNG),
      ∃ ps, randomRun cw ch imgs placed g = .ok ps ∧
        ps.length = placed.length + imgs.length ∧
        ∀ p ∈ ps, p ∈ placed ∨ inBounds cw ch p := by
  induction imgs with
  | nil =>
    intro placed g
    exact ⟨placed, rfl, by simp [randomRun], fun p hp => Or.inl hp⟩
  | cons img rest ih =>
    intro placed g
    obtain ⟨hw, hh⟩ := hfits img (by simp)
    obtain ⟨x, hx, hx0, hx1⟩ := randint_some g (a := 0) (b := cw - img.width) (by omega)
    obtain ⟨y, hy, hy0, hy1⟩ :=
      randint_some ⟨g.stream, g.cursor + 1⟩ (a := 0) (b := ch - img.height) (by omega)
    obtain ⟨ps, hrun, hlen, hmem⟩ :=
      ih (fun i hi => hfits i (by simp [hi]))
        (placed ++ [⟨x, y, img.width, img.height⟩]) ⟨g.stream, g.cursor + 1 + 1⟩
    refine ⟨ps, ?_, ?_, ?_⟩
    · rw [randomRun_cons]
      simp only [hx, hy]
      exact hrun
    · simp at hlen ⊢
      omega
    · intro p hp
      rcases hmem p hp with hmem' | hb
      · rcases List.mem_append.mp hmem' with h | h
        · exact Or.inl h
        · refine Or.inr ?_
          have : p = ⟨x, y, img.width, img.height⟩ := by simpa using h
          subst this
          unfold inBounds
          dsimp only
          exact ⟨hx0, by omega, hy0, by omega⟩
      · exact Or.inr hb

theorem randomRun_err_iff {cw ch : Int} (imgs : List SourceImage) :
    ∀ (placed : List Placement) (g : RNG),
      ((randomRun cw ch imgs placed g).isOk = false ↔
        ∃ img ∈ imgs, cw < (img.width : Int) ∨ ch < (img.height : Int)) := by
  induction imgs with
  | nil => intro placed g; simp [randomRun, Res.isOk]
  | cons img rest ih =>
    intro placed g
    by_cases hfit : (img.width : Int) ≤ cw ∧ (img.height : Int) ≤ ch
    · obtain ⟨x, hx, -, -⟩ := randint_some g (a := 0) (b := cw - img.width) (by omega)
      obtain ⟨y, hy, -, -⟩ :=
        randint_some ⟨g.stream, g.cursor + 1⟩ (a := 0) (b := ch - img.height) (by omega)
      rw [randomRun_cons]
      simp only [hx, hy]
      rw [ih]
      constructor
      · rintro ⟨i, hi, h⟩; exact ⟨i, by simp [hi], h⟩
      · rintro ⟨i, hi, h⟩
        rcases List.mem_cons.mp hi with rfl | hi'
        · exact absurd h (by omega)
        · exact ⟨i, hi', h⟩
    · rw [randomRun_cons]
      rcases lt_or_le cw (img.width : Int) with hw | hw
      · have hx : randint 0 (cw - img.width) g = none := randint_none g (by omega)
        simp only [hx, Res.isOk, true_iff]
        exact ⟨img, by simp, Or.inl hw⟩
      · have hh : ch < (img.height : Int) := by
          rcases not_and_or.mp hfit with h | h
          · omega
          · omega
        obtain ⟨x, hx, -, -⟩ := randint_some g (a := 0) (b := cw - img.width) (by omega)
        have hy : randint 0 (ch - img.height) (⟨g.stream, g.cursor + 1⟩ : RNG) = none :=
          randint_none _ (by omega)
        simp only [hx, hy, Res.isOk, true_iff]
        exact ⟨img, by simp, Or.inr hh⟩

/-! ## Lemmas about `ceilSqrt`, `ceilDiv` and the list maxima -/

/-- `ceilSqrt n` is the least `c` with `n ≤ c * c`. -/
theorem ceilSqrt_spec (n : Nat) :
    n ≤ ceilSqrt n * ceilSqrt n ∧ ∀ m, n ≤ m * m → ceilSqrt n ≤ m := by
  unfold ceilSqrt
  by_cases hsq : Nat.sqrt n * Nat.sqrt n = n
  · rw [if_pos (by simpa using hsq)]
    refine ⟨le_of_eq hsq.symm, fun m hm => ?_⟩
    calc Nat.sqrt n ≤ Nat.sqrt (m * m) := Nat.sqrt_le_sqrt hm
      _ = m := Nat.sqrt_eq m
  · rw [if_neg (by simpa using hsq)]
    constructor
    · simpa [Nat.succ_eq_add_one] using le_of_lt (Nat.lt_succ_sqrt n)
    · intro m hm
      have h1 : Nat.sqrt n ≤ m := by
        calc Nat.sqrt n ≤ Nat.sqrt (m * m) := Nat.sqrt_le_sqrt hm
          _ = m := Nat.sqrt_eq m
      rcases eq_or_lt_of_le h1 with rfl | h2
      · exact absurd (le_antisymm (Nat.sqrt_le n) hm) hsq
      · omega

/-- `ceilDiv n d` is the ceiling of `n / d`:
`d * ceilDiv n d` covers `n`, and one fewer row would not. -/
theorem ceilDiv_spec (n d : Nat) (hd : 0 < d) :
    n ≤ ceilDiv n d * d ∧ (0 < n → (ceilDiv n d - 1) * d < n) := by
  unfold ceilDiv
  have hdm := Nat.div_add_mod (n + d - 1) d
  have hlt : (n + d - 1) % d < d := Nat.mod_lt _ hd
  constructor
  · rcases Nat.eq_zero_or_pos n with rfl | hn
    · simp
    · have h1 : d * ((n + d - 1) / d) = n + d - 1 - (n + d - 1) % d := by omega
      have h2 : n + d - 1 - (n + d - 1) % d ≥ n + d - 1 - (d - 1) := by omega
      calc n ≤ d * ((n + d - 1) / d) := by omega
        _ = (n + d - 1) / d * d := Nat.mul_comm _ _
  · intro hn
    rcases Nat.eq_zero_or_pos ((n + d - 1) / d) with hq | hq
    · rw [hq]
      simpa using hn
    · have h1 : ((n + d - 1) / d - 1) * d = (n + d - 1) / d * d - d :=
        Nat.sub_one_mul _ _
      have h2 : (n + d - 1) / d * d = d * ((n + d - 1) / d) := Nat.mul_comm _ _
      have h3 : d * ((n + d - 1) / d) = n + d - 1 - (n + d - 1) % d := by omega
      omega

theorem maxImgWidth_le (imgs : List SourceImage) :
    ∀ img ∈ imgs, img.width ≤ maxImgWidth imgs := by
  have haux : ∀ (l : List SourceImage) (acc : Nat),
      acc ≤ l.foldl (fun a i => max a i.width) acc ∧
      ∀ img ∈ l, img.width ≤ l.foldl (fun a i => max a i.width) acc := by
    intro l
    induction l with
    | nil => intro acc; simp
    | cons i rest ih =>
      intro acc
      refine ⟨le_trans (le_max_left _ _) (ih (max acc i.width)).1, ?_⟩
      intro img hmem
      rcases List.mem_cons.mp hmem with rfl | hmem'
      · exact le_trans (le_max_right _ _) (ih (max acc img.width)).1
      · exact (ih (max acc i.width)).2 img hmem'
  exact (haux imgs 0).2

theorem maxImgHeight_le (imgs : List SourceImage) :
    ∀ img ∈ imgs, img.height ≤ maxImgHeight imgs := by
  have haux : ∀ (l : List SourceImage) (acc : Nat),
      acc ≤ l.foldl (fun a i => max a i.height) acc ∧
      ∀ img ∈ l, img.height ≤ l.foldl (fun a i => max a i.height) acc := by
    intro l
    induction l with
    | nil => intro acc; simp
    | cons i rest ih =>
      intro acc
      refine ⟨le_trans (le_max_left _ _) (ih (max acc i.height)).1, ?_⟩
      intro img hmem
      rcases List.mem_cons.mp hmem with rfl | hmem'
      · exact le_trans (le_max_right _ _) (ih (max acc img.height)).1
      · exact (ih (max acc i.height)).2 img hmem'
  exact (haux imgs 0).2

/-- The fold computing `maxImgWidth` is attained on a nonempty list. -/
theorem maxImgWidth_mem (imgs : List SourceImage) (hne : imgs ≠ []) :
    ∃ img ∈ imgs, maxImgWidth imgs = img.width := by
  have haux : ∀ (l : List SourceImage) (acc : Nat),
      l.foldl (fun a i => max a i.width) acc = acc ∨
      ∃ img ∈ l, l.foldl (fun a i => max a i.width) acc = img.width := by
    intro l
    induction l with
    | nil => intro acc; exact Or.inl rfl
    | cons i rest ih =>
      intro acc
      rcases ih (max acc i.width) with h | ⟨img, hmem, h⟩
      · rcases Nat.le_total acc i.width with hle | hle
        · exact Or.inr ⟨i, by simp, by simpa [Nat.max_eq_right hle] using h⟩
        · exact Or.inl (by simpa [Nat.max_eq_left hle] using h)
      · exact Or.inr ⟨img, by simp [hmem], h⟩
  rcases haux imgs 0 with h | ⟨img, hmem, h⟩
  · rcases imgs with _ | ⟨i, rest⟩
    · exact absurd rfl hne
    · have hle := (maxImgWidth_le (i :: rest)) i (by simp)
      have h0 : maxImgWidth (i :: rest) = 0 := h
      exact ⟨i, by simp, by omega⟩
  · exact ⟨img, hmem, h⟩

/-- The fold computing `maxImgHeight` is attained on a nonempty list. -/
theorem maxImgHeight_mem (imgs : List SourceImage) (hne : imgs ≠ []) :
    ∃ img ∈ imgs, maxImgHeight imgs = img.height := by
  have haux : ∀ (l : List SourceImage) (acc : Nat),
      l.foldl (fun a i => max a i.height) acc = acc ∨
      ∃ img ∈ l, l.foldl (fun a i => max a i.height) acc = img.height := by
    intro l
    induction l with
    | nil => intro acc; exact Or.inl rfl
    | cons i rest ih =>
      intro acc
      rcases ih (max acc i.height) with h | ⟨img, hmem, h⟩
      · rcases Nat.le_total acc i.height with hle | hle
        · exact Or.inr ⟨i, by simp, by simpa [Nat.max_eq_right hle] using h⟩
        · exact Or.inl (by simpa [Nat.max_eq_left hle] using h)
      · exact Or.inr ⟨img, by simp [hmem], h⟩
  rcases haux imgs 0 with h | ⟨img, hmem, h⟩
  · rcases imgs with _ | ⟨i, rest⟩
    · exact absurd rfl hne
    · have hle := (maxImgHeight_le (i :: rest)) i (by simp)
      have h0 : maxImgHeight (i :: rest) = 0 := h
      exact ⟨i, by simp, by omega⟩
  · exact ⟨img, hmem, h⟩

/-! ## Lemmas about the shared grid paste loop -/

theorem gridPlaceAux_length (cols cellW cellH spacing : Nat) :
    ∀ (imgs : List SourceImage) (i0 : Nat),
      (gridPlaceAux cols cellW cellH spacing i0 imgs).length = imgs.length := by
  intro imgs
  induction imgs with
  | nil => intro i0; rfl
  | cons img rest ih => intro i0; simpa [gridPlaceAux] using ih (i0 + 1)

theorem gridPlaceAux_getElem (cols cellW cellH spacing : Nat) :
    ∀ (imgs : List SourceImage) (i0 j : Nat),
      (gridPlaceAux cols cellW cellH spacing i0 imgs)[j]? =
        imgs[j]?.map fun img =>
          ({ x := (((i0 + j) % cols) * (cellW + spacing) + (cellW - img.width) / 2 : Nat)
             y := (((i0 + j) / cols) * (cellH + spacing) + (cellH - img.height) / 2 : Nat)
             width := img.width
             height := img.height } : Placement) := by
  intro imgs
  induction imgs with
  | nil => intro i0 j; simp [gridPlaceAux]
  | cons img rest ih =>
    intro i0 j
    rcases j with _ | j
    · simp [gridPlaceAux]
    · have := ih (i0 + 1) j
      simp only [gridPlaceAux, List.getElem?_cons_succ]
      rw [this]
      have harith : i0 + 1 + j = i0 + (j + 1) := by omega
      rw [harith]

theorem gridPlace_length (imgs : List SourceImage) (cols cellW cellH spacing : Nat) :
    (gridPlace imgs cols cellW cellH spacing).length = imgs.length :=
  gridPlaceAux_length cols cellW cellH spacing imgs 0

theorem gridPlace_getElem (imgs : List SourceImage) (cols cellW cellH spacing : Nat)
    (j : Nat) :
    (gridPlace imgs cols cellW cellH spacing)[j]? =
      imgs[j]?.map fun img =>
        ({ x := ((j % cols) * (cellW + spacing) + (cellW - img.width) / 2 : Nat)
           y := ((j / cols) * (cellH + spacing) + (cellH - img.height) / 2 : Nat)
           width := img.width
           height := img.height } : Placement) := by
  have := gridPlaceAux_getElem cols cellW cellH spacing imgs 0 j
  simpa [gridPlace] using this

/-- Bounds for every placement of the shared grid loop, for a canvas of
`cols` columns and `rows` rows of `cellW × cellH` cells. -/
theorem gridPlace_bounds (imgs : List SourceImage) (cols rows cellW cellH spacing : Nat)
    (hcols : 1 ≤ cols) (hrows : imgs.length ≤ rows * cols)
    (hfitW : ∀ img ∈ imgs, img.width ≤ cellW)
    (hfitH : ∀ img ∈ imgs, img.height ≤ cellH) :
    ∀ p ∈ gridPlace imgs cols cellW cellH spacing,
      inBounds (cols * cellW + (cols - 1) * spacing : Nat)
               (rows * cellH + (rows - 1) * spacing : Nat) p := by
  intro p hp
  obtain ⟨j, hjlen, hpj⟩ := List.mem_iff_getElem.mp hp
  have hjlen' : j < imgs.length := by
    have := gridPlace_length imgs cols cellW cellH spacing
    omega
  have hget := gridPlace_getElem imgs cols cellW cellH spacing j
  rw [List.getElem?_eq_getElem hjlen, List.getElem?_eq_getElem hjlen'] at hget
  rw [hpj] at hget
  simp only [Option.map_some'] at hget
  obtain rfl := Option.some.injEq _ _ ▸ hget
  have himgmem : imgs[j] ∈ imgs := List.getElem_mem hjlen'
  have himgw : imgs[j].width ≤ cellW := hfitW _ himgmem
  have himgh : imgs[j].height ≤ cellH := hfitH _ himgmem
  obtain ⟨c, rfl⟩ : ∃ c, cols = c + 1 := ⟨cols - 1, by omega⟩
  have hrowpos : 1 ≤ rows := by
    rcases Nat.eq_zero_or_pos rows with rfl | h
    · rw [Nat.zero_mul] at hrows; omega
    · exact h
  obtain ⟨r, rfl⟩ : ∃ r, rows = r + 1 := ⟨rows - 1, by omega⟩
  have hm : j % (c + 1) ≤ c := by
    have := Nat.mod_lt j (show 0 < c + 1 by omega)
    omega
  have hr : j / (c + 1) ≤ r := by
    have hjr : j < (r + 1) * (c + 1) := by omega
    have := (Nat.div_lt_iff_lt_mul (show 0 < c + 1 by omega)).mpr hjr
    omega
  unfold inBounds
  dsimp only
  refine ⟨Int.natCast_nonneg _, ?_, Int.natCast_nonneg _, ?_⟩
  · have hoff : (cellW - imgs[j].width) / 2 + imgs[j].width ≤ cellW := by omega
    have h1 : j % (c + 1) * (cellW + spacing) ≤ c * (cellW + spacing) :=
      Nat.mul_le_mul_right _ hm
    have h2 : j % (c + 1) * (cellW + spacing) +
        ((cellW - imgs[j].width) / 2 + imgs[j].width) ≤
        c * (cellW + spacing) + cellW := Nat.add_le_add h1 hoff
    have hnat : j % (c + 1) * (cellW + spacing) + (cellW - imgs[j].width) / 2 +
        imgs[j].width ≤ (c + 1) * cellW + (c + 1 - 1) * spacing := by
      calc j % (c + 1) * (cellW + spacing) + (cellW - imgs[j].width) / 2 + imgs[j].width
          = j % (c + 1) * (cellW + spacing) +
            ((cellW - imgs[j].width) / 2 + imgs[j].width) := by omega
        _ ≤ c * (cellW + spacing) + cellW := h2
        _ = (c + 1) * cellW + c * spacing := by ring
        _ = (c + 1) * cellW + (c + 1 - 1) * spacing := by simp
    exact_mod_cast hnat
  · have hoff : (cellH - imgs[j].height) / 2 + imgs[j].height ≤ cellH := by omega
    have h1 : j / (c + 1) * (cellH + spacing) ≤ r * (cellH + spacing) :=
      Nat.mul_le_mul_right _ hr
    have h2 : j / (c + 1) * (cellH + spacing) +
        ((cellH - imgs[j].height) / 2 + imgs[j].height) ≤
        r * (cellH + spacing) + cellH := Nat.add_le_add h1 hoff
    have hnat : j / (c + 1) * (cellH + spacing) + (cellH - imgs[j].height) / 2 +
        imgs[j].height ≤ (r + 1) * cellH + (r + 1 - 1) * spacing := by
      calc j / (c + 1) * (cellH + spacing) + (cellH - imgs[j].height) / 2 + imgs[j].height
          = j / (c + 1) * (cellH + spacing) +
            ((cellH - imgs[j].height) / 2 + imgs[j].height) := by omega
        _ ≤ r * (cellH + spacing) + cellH := h2
        _ = (r + 1) * cellH + r * spacing := by ring
        _ = (r + 1) * cellH + (r + 1 - 1) * spacing := by simp
    exact_mod_cast hnat

/-! ## Lemmas about the thumbnail computation -/

theorem one_le_roundAspect (q : ℚ) (key : Int → ℚ) : 1 ≤ roundAspect q key :=
  le_max_right _ _

theorem roundAspect_le_of_le {q : ℚ} {z : Int} (key : Int → ℚ)
    (h : q ≤ (z : ℚ)) (hz : 1 ≤ z) : roundAspect q key ≤ z := by
  unfold roundAspect
  refine max_le (le_trans ?_ (Int.ceil_le.mpr h)) hz
  split
  · exact Int.floor_le_ceil q
  · exact le_refl _

theorem thumbFit_eq_fits {w h boxW boxH : Nat} (hfits : w ≤ boxW ∧ h ≤ boxH) :
    thumbFit w h boxW boxH = (w, h) := by
  unfold thumbFit
  rw [if_pos hfits]

theorem thumbFit_eq_wide {w h boxW boxH : Nat} (hnofits : ¬(w ≤ boxW ∧ h ≤ boxH))
    (hcond : (w : ℚ) / (h : ℚ) ≤ (boxW : ℚ) / (boxH : ℚ)) :
    thumbFit w h boxW boxH =
      ((roundAspect ((boxH : ℚ) * ((w : ℚ) / (h : ℚ)))
        (fun n => |(w : ℚ) / (h : ℚ) - (n : ℚ) / (boxH : ℚ)|)).toNat, boxH) := by
  simp only [thumbFit, if_neg hnofits, if_pos hcond]

theorem thumbFit_eq_tall {w h boxW boxH : Nat} (hnofits : ¬(w ≤ boxW ∧ h ≤ boxH))
    (hcond : ¬((w : ℚ) / (h : ℚ) ≤ (boxW : ℚ) / (boxH : ℚ))) :
    thumbFit w h boxW boxH =
      (boxW,
       (roundAspect ((boxW : ℚ) / ((w : ℚ) / (h : ℚ)))
        (fun n => if n = 0 then 0 else |(w : ℚ) / (h : ℚ) - (boxW : ℚ) / (n : ℚ)|)).toNat) := by
  simp only [thumbFit, if_neg hnofits, if_neg hcond]

theorem thumbFit_le_box {w h boxW boxH : Nat} (hw : 0 < w) (hh : 0 < h)
    (hbw : 0 < boxW) (hbh : 0 < boxH) :
    (thumbFit w h boxW boxH).1 ≤ boxW ∧ (thumbFit w h boxW boxH).2 ≤ boxH := by
  have hhq : (0 : ℚ) < (h : ℚ) := by exact_mod_cast hh
  have hwq : (0 : ℚ) < (w : ℚ) := by exact_mod_cast hw
  have hbhq : (0 : ℚ) < (boxH : ℚ) := by exact_mod_cast hbh
  have hbwq : (0 : ℚ) < (boxW : ℚ) := by exact_mod_cast hbw
  by_cases hfits : w ≤ boxW ∧ h ≤ boxH
  · rw [thumbFit_eq_fits hfits]
    exact hfits
  · by_cases hcond : (w : ℚ) / (h : ℚ) ≤ (boxW : ℚ) / (boxH : ℚ)
    · rw [thumbFit_eq_wide hfits hcond]
      refine ⟨?_, le_refl _⟩
      have hq : (boxH : ℚ) * ((w : ℚ) / (h : ℚ)) ≤ ((boxW : Int) : ℚ) := by
        have h1 : (boxH : ℚ) * ((w : ℚ) / (h : ℚ)) ≤ (boxH : ℚ) * ((boxW : ℚ) / (boxH : ℚ)) :=
          mul_le_mul_of_nonneg_left hcond (le_of_lt hbhq)
        have h2 : (boxH : ℚ) * ((boxW : ℚ) / (boxH : ℚ)) = (boxW : ℚ) := by
          field_simp
        push_cast
        rw [h2] at h1
        exact h1
      have := roundAspect_le_of_le
        (fun n => |(w : ℚ) / (h : ℚ) - (n : ℚ) / (boxH : ℚ)|) hq (by exact_mod_cast hbw)
      exact Int.toNat_le.mpr this
    · rw [thumbFit_eq_tall hfits hcond]
      refine ⟨le_refl _, ?_⟩
      have haspect : (0 : ℚ) < (w : ℚ) / (h : ℚ) := div_pos hwq hhq
      have hq : (boxW : ℚ) / ((w : ℚ) / (h : ℚ)) ≤ ((boxH : Int) : ℚ) := by
        have h1 : (boxW : ℚ) / (boxH : ℚ) < (w : ℚ) / (h : ℚ) := not_le.mp hcond
        have h2 : (boxW : ℚ) < (w : ℚ) / (h : ℚ) * (boxH : ℚ) :=
          (div_lt_iff hbhq).mp h1
        have h3 : (boxW : ℚ) / ((w : ℚ) / (h : ℚ)) < (boxH : ℚ) :=
          (div_lt_iff haspect).mpr (by linarith [mul_comm ((w : ℚ) / (h : ℚ)) (boxH : ℚ)])
        push_cast
        exact le_of_lt h3
      have := roundAspect_le_of_le
        (fun n => if n = 0 then 0 else |(w : ℚ) / (h : ℚ) - (boxW : ℚ) / (n : ℚ)|)
        hq (by exact_mod_cast hbh)
      exact Int.toNat_le.mpr this

theorem thumbFit_le_src {w h boxW boxH : Nat} (hw : 0 < w) (hh : 0 < h)
    (hbw : 0 < boxW) (hbh : 0 < boxH) :
    (thumbFit w h boxW boxH).1 ≤ w ∧ (thumbFit w h boxW boxH).2 ≤ h := by
  have hhq : (0 : ℚ) < (h : ℚ) := by exact_mod_cast hh
  have hwq : (0 : ℚ) < (w : ℚ) := by exact_mod_cast hw
  have hbhq : (0 : ℚ) < (boxH : ℚ) := by exact_mod_cast hbh
  have hbwq : (0 : ℚ) < (boxW : ℚ) := by exact_mod_cast hbw
  by_cases hfits : w ≤ boxW ∧ h ≤ boxH
  · rw [thumbFit_eq_fits hfits]
    exact ⟨le_refl _, le_refl _⟩
  · by_cases hcond : (w : ℚ) / (h : ℚ) ≤ (boxW : ℚ) / (boxH : ℚ)
    · rw [thumbFit_eq_wide hfits hcond]
      -- in this branch boxH < h: otherwise the image would already fit
      have hbh_lt : (boxH : ℚ) < (h : ℚ) := by
        by_contra hle
        push_neg at hle
        have hmul : (w : ℚ) * (boxH : ℚ) ≤ (boxW : ℚ) * (h : ℚ) :=
          (div_le_div_iff hhq hbhq).mp hcond
        have hw_le : (w : ℚ) ≤ (boxW : ℚ) := by
          by_contra hwgt
          push_neg at hwgt
          nlinarith
        exact hfits ⟨by exact_mod_cast hw_le, by exact_mod_cast hle⟩
      refine ⟨?_, by exact_mod_cast le_of_lt hbh_lt⟩
      have hq : (boxH : ℚ) * ((w : ℚ) / (h : ℚ)) ≤ ((w : Int) : ℚ) := by
        have h1 : (boxH : ℚ) * ((w : ℚ) / (h : ℚ)) < (h : ℚ) * ((w : ℚ) / (h : ℚ)) :=
          mul_lt_mul_of_pos_right hbh_lt (div_pos hwq hhq)
        have h2 : (h : ℚ) * ((w : ℚ) / (h : ℚ)) = (w : ℚ) := by field_simp
        push_cast
        rw [h2] at h1
        exact le_of_lt h1
      have := roundAspect_le_of_le
        (fun n => |(w : ℚ) / (h : ℚ) - (n : ℚ) / (boxH : ℚ)|) hq (by exact_mod_cast hw)
      exact Int.toNat_le.mpr this
    · rw [thumbFit_eq_tall hfits hcond]
      -- in this branch boxW < w: otherwise the branch test would fail
      have hbw_lt : (boxW : ℚ) < (w : ℚ) := by
        by_contra hle
        push_neg at hle
        have h1 : (boxW : ℚ) / (boxH : ℚ) < (w : ℚ) / (h : ℚ) := not_le.mp hcond
        have hmul : (boxW : ℚ) * (h : ℚ) < (w : ℚ) * (boxH : ℚ) :=
          (div_lt_div_iff hbhq hhq).mp h1
        have hhle : (h : ℚ) ≤ (boxH : ℚ) := by nlinarith
        exact hfits ⟨by exact_mod_cast hle, by exact_mod_cast hhle⟩
      refine ⟨by exact_mod_cast le_of_lt hbw_lt, ?_⟩
      have haspect : (0 : ℚ) < (w : ℚ) / (h : ℚ) := div_pos hwq hhq
      have hq : (boxW : ℚ) / ((w : ℚ) / (h : ℚ)) ≤ ((h : Int) : ℚ) := by
        have h1 : (boxW : ℚ) / ((w : ℚ) / (h : ℚ)) < (w : ℚ) / ((w : ℚ) / (h : ℚ)) :=
          (div_lt_div_right haspect).mpr hbw_lt
        have h2 : (w : ℚ) / ((w : ℚ) / (h : ℚ)) = (h : ℚ) := by
          field_simp
        push_cast
        rw [h2] at h1
        exact le_of_lt h1
      have := roundAspect_le_of_le
        (fun n => if n = 0 then 0 else |(w : ℚ) / (h : ℚ) - (boxW : ℚ) / (n : ℚ)|)
        hq (by exact_mod_cast hh)
      exact Int.toNat_le.mpr this

theorem thumbFit_pos {w h boxW boxH : Nat} (hw : 0 < w) (hh : 0 < h)
    (hbw : 0 < boxW) (hbh : 0 < boxH) :
    0 < (thumbFit w h boxW boxH).1 ∧ 0 < (thumbFit w h boxW boxH).2 := by
  by_cases hfits : w ≤ boxW ∧ h ≤ boxH
  · rw [thumbFit_eq_fits hfits]
    exact ⟨hw, hh⟩
  · by_cases hcond : (w : ℚ) / (h : ℚ) ≤ (boxW : ℚ) / (boxH : ℚ)
    · rw [thumbFit_eq_wide hfits hcond]
      refine ⟨?_, hbh⟩
      have h1 := one_le_roundAspect ((boxH : ℚ) * ((w : ℚ) / (h : ℚ)))
        (fun n => |(w : ℚ) / (h : ℚ) - (n : ℚ) / (boxH : ℚ)|)
      omega
    · rw [thumbFit_eq_tall hfits hcond]
      refine ⟨hbw, ?_⟩
      have h1 := one_le_roundAspect ((boxW : ℚ) / ((w : ℚ) / (h : ℚ)))
        (fun n => if n = 0 then 0 else |(w : ℚ) / (h : ℚ) - (boxW : ℚ) / (n : ℚ)|)
      omega

/-! ## The source's mosaic loop matches the spec-side search -/

/-- The source's overlap test equals the separation-by-`spacing` clash
predicate: only one of the two rectangles is effectively grown by `spacing`
(growing both, as the spec's sentence literally reads, would demand a `2 *
spacing` gap). -/
theorem sepClash_eq_overlaps (spacing : Nat) (x y : Int) (w h : Nat) (p : Placement) :
    sepClash spacing x y w h p = overlaps spacing x y w h p := by
  unfold sepClash overlaps
  rw [decide_eq_decide]
  omega

theorem specSearch_succ (clash : Nat → Int → Int → Nat → Nat → Placement → Bool)
    (cw ch : Int) (spacing : Nat) (img : SourceImage) (placed : List Placement)
    (attempts remaining : Nat) (g : RNG) :
    specSearch clash cw ch spacing img placed attempts (remaining + 1) g =
      match randint 0 (cw - img.width) g with
      | none => none
      | some (x, g) =>
        match randint 0 (ch - img.height) g with
        | none => none
        | some (y, g) =>
          if placed.all (fun p => !clash spacing x y img.width img.height p) then
            some ((x, y), g)
          else if attempts + 1 = 50 then some ((x, y), g)
          else specSearch clash cw ch spacing img placed (attempts + 1) remaining g := rfl

theorem mosaicFind_eq_specSearch {cw ch : Int} {spacing : Nat} {img : SourceImage}
    {placed : List Placement} :
    ∀ fuel attempts (g : RNG), attempts + fuel = 50 → 1 ≤ fuel →
      mosaicFind cw ch spacing img placed fuel g =
        specSearch sepClash cw ch spacing img placed attempts fuel g := by
  intro fuel
  induction fuel with
  | zero => omega
  | succ fuel ih =>
    intro attempts g hsum _
    rw [mosaicFind_succ, specSearch_succ]
    rcases hx : randint 0 (cw - img.width) g with _ | ⟨x, g1⟩
    · rfl
    · dsimp only
      rcases hy : randint 0 (ch - img.height) g1 with _ | ⟨y, g2⟩
      · rfl
      · dsimp only
        have hall : (placed.all fun p => !sepClash spacing x y img.width img.height p) =
            !placed.any (overlaps spacing x y img.width img.height) := by
          have hfun : (fun p => !sepClash spacing x y img.width img.height p) =
              (fun p => !overlaps spacing x y img.width img.height p) := by
            funext p
            rw [sepClash_eq_overlaps]
          rw [hfun, List.all_eq_not_any_not]
          simp only [Bool.not_not]
        by_cases hov : placed.any (overlaps spacing x y img.width img.height) = true
        · rw [if_pos hov, if_neg (show ¬((placed.all
              fun p => !sepClash spacing x y img.width img.height p) = true) by
            rw [hall, hov]; simp)]
          rcases fuel with _ | fuel2
          · rw [if_pos (by omega)]
          · rw [if_neg (by omega)]
            exact ih (attempts + 1) g2 (by omega) (by omega)
        · have hovf : placed.any (overlaps spacing x y img.width img.height) = false :=
            Bool.eq_false_iff.mpr hov
          rw [if_neg hov, if_pos (show (placed.all
              fun p => !sepClash spacing x y img.width img.height p) = true by
            rw [hall, hovf]; rfl)]

theorem specMosaicRun_cons (clash : Nat → Int → Int → Nat → Nat → Placement → Bool)
    (cw ch : Int) (spacing : Nat) (img : SourceImage) (rest : List SourceImage)
    (placed : List Placement) (g : RNG) :
    specMosaicRun clash cw ch spacing (img :: rest) placed g =
      match specSearch clash cw ch spacing img placed 0 50 g with
      | none => none
      | some ((x, y), g) =>
        specMosaicRun clash cw ch spacing rest
          (placed ++ [⟨x, y, img.width, img.height⟩]) g := rfl

/-- Under the fit hypothesis the source's mosaic loop and the spec-side loop
(with the separation clash predicate) succeed and agree. -/
theorem mosaicRun_eq_specMosaicRun (cw ch : Int) (spacing : Nat)
    (imgs : List SourceImage)
    (hfits : ∀ img ∈ imgs, (img.width : Int) ≤ cw ∧ (img.height : Int) ≤ ch) :
    ∀ (placed : List Placement) (g : RNG),
      ∃ ps g2, mosaicRun cw ch spacing imgs placed g = .ok ps ∧
        specMosaicRun sepClash cw ch spacing imgs placed g = some (ps, g2) := by
  induction imgs with
  | nil =>
    intro placed g
    exact ⟨placed, g, rfl, rfl⟩
  | cons img rest ih =>
    intro placed g
    obtain ⟨hw, hh⟩ := hfits img (by simp)
    obtain ⟨x, y, g2, hfind, -, -, -, -⟩ :=
      mosaicFind_some cw ch spacing img placed hw hh 50 (by omega) g
    have hspec : specSearch sepClash cw ch spacing img placed 0 50 g = some ((x, y), g2) := by
      rw [← mosaicFind_eq_specSearch 50 0 g (by omega) (by omega)]
      exact hfind
    obtain ⟨ps, g3, hrun, hspecrun⟩ :=
      ih (fun i hi => hfits i (by simp [hi])) (placed ++ [⟨x, y, img.width, img.height⟩]) g2
    refine ⟨ps, g3, ?_, ?_⟩
    · rw [mosaicRun_cons]
      simp only [hfind]
      exact hrun
    · rw [specMosaicRun_cons]
      simp only [hspec]
      exact hspecrun

/-! ## Lemmas about hex color parsing -/

/-- A hex digit is not whitespace, a sign, an underscore or an `x`/`X`
prefix letter — so inside a digit-only slice the literal grammar reduces to
the plain digit run. -/
theorem isHexDigit_char_facts {c : Char} (h : isHexDigit c = true) :
    pySpace c = false ∧ ¬(c = '+') ∧ ¬(c = '-') ∧ ¬(c = '_') ∧
      ¬(c = 'x') ∧ ¬(c = 'X') := by
  refine ⟨?_, ?_, ?_, ?_, ?_, ?_⟩
  · by_contra hsp
    rw [Bool.not_eq_false] at hsp
    simp only [pySpace, Bool.or_eq_true, decide_eq_true_eq] at hsp
    rcases hsp with ((((rfl | rfl) | rfl) | rfl) | rfl) | rfl <;>
      exact absurd h (by decide)
  · intro he
    rw [he] at h
    exact absurd h (by decide)
  · intro he
    rw [he] at h
    exact absurd h (by decide)
  · intro he
    rw [he] at h
    exact absurd h (by decide)
  · intro he
    rw [he] at h
    exact absurd h (by decide)
  · intro he
    rw [he] at h
    exact absurd h (by decide)

/-- On a two-hex-digit slice the modelled `int(-, 16)` is the byte value. -/
theorem pyIntHex_pair {c1 c2 : Char} (h1 : isHexDigit c1 = true)
    (h2 : isHexDigit c2 = true) :
    pyIntHex [c1, c2] = some ((16 * hexDigitVal c1 + hexDigitVal c2 : Nat) : Int) := by
  obtain ⟨hs1, hp1, hm1, hu1, -, -⟩ := isHexDigit_char_facts h1
  obtain ⟨hs2, -, -, hu2, hx2, hX2⟩ := isHexDigit_char_facts h2
  have hstrip : stripPy [c1, c2] = [c1, c2] := by
    simp [stripPy, List.dropWhile_cons, hs1, hs2]
  have htail : hexTail (hexDigitVal c1) [c2] =
      some (16 * hexDigitVal c1 + hexDigitVal c2) := by
    unfold hexTail
    rw [if_neg hu2, if_pos h2]
    unfold hexTail
    rfl
  have hcore : pyIntHexCore [c1, c2] =
      some (16 * hexDigitVal c1 + hexDigitVal c2) := by
    unfold pyIntHexCore
    dsimp only
    rw [if_neg (by rintro ⟨-, hc | hc⟩; exacts [hx2 hc, hX2 hc])]
    unfold pyHexDigits
    dsimp only
    rw [if_pos h1]
    exact htail
  unfold pyIntHex
  rw [hstrip]
  dsimp only
  rw [if_neg hp1, if_neg hm1, hcore]
  rfl

/-- On a well-formed `#RRGGBB` string the source's parser returns exactly the
three byte pairs. -/
theorem parseHexColor_of_wellFormed {cs : List Char}
    (hwf : specHexWellFormed cs = true) :
    parseHexColor cs =
      some (((16 * hexDigitVal (cs.getD 1 ' ') + hexDigitVal (cs.getD 2 ' ') : Nat) : Int),
            ((16 * hexDigitVal (cs.getD 3 ' ') + hexDigitVal (cs.getD 4 ' ') : Nat) : Int),
            ((16 * hexDigitVal (cs.getD 5 ' ') + hexDigitVal (cs.getD 6 ' ') : Nat) : Int)) := by
  unfold specHexWellFormed at hwf
  simp only [Bool.and_eq_true, beq_iff_eq] at hwf
  obtain ⟨⟨hlen, -⟩, hdigits⟩ := hwf
  match cs, hlen with
  | [c0, c1, c2, c3, c4, c5, c6], _ =>
    simp only [List.drop_succ_cons, List.drop_zero, List.all_cons, List.all_nil,
      Bool.and_eq_true, Bool.and_true] at hdigits
    obtain ⟨h1, h2, h3, h4, h5, h6⟩ := hdigits
    have e1 := pyIntHex_pair h1 h2
    have e2 := pyIntHex_pair h3 h4
    have e3 := pyIntHex_pair h5 h6
    simp [parseHexColor, pySlice, e1, e2, e3, List.getD]

/-! ## Lemmas about the template paste loop -/

theorem templatePlace_length :
    ∀ (imgs : List SourceImage) (cells : List Cell),
      (templatePlace imgs cells).length = min imgs.length cells.length := by
  intro imgs
  induction imgs with
  | nil => intro cells; cases cells <;> simp [templatePlace]
  | cons img rest ih =>
    intro cells
    cases cells with
    | nil => simp [templatePlace]
    | cons cell cells2 =>
      simp only [templatePlace, List.length_cons, ih cells2]
      omega

theorem templatePlace_getElem :
    ∀ (imgs : List SourceImage) (cells : List Cell) (j : Nat),
      (templatePlace imgs cells)[j]? =
        imgs[j]?.bind fun img => cells[j]?.map fun cell =>
          ({ x := cell.x + ((cell.width -
                (thumbFit img.width img.height cell.width cell.height).1) / 2 : Nat)
             y := cell.y + ((cell.height -
                (thumbFit img.width img.height cell.width cell.height).2) / 2 : Nat)
             width := (thumbFit img.width img.height cell.width cell.height).1
             height := (thumbFit img.width img.height cell.width cell.height).2 } :
            Placement) := by
  intro imgs
  induction imgs with
  | nil => intro cells j; simp [templatePlace]
  | cons img rest ih =>
    intro cells j
    cases cells with
    | nil => cases j <;> simp [templatePlace]
    | cons cell cells2 =>
      cases j with
      | zero => simp [templatePlace]
      | succ j2 =>
        simp only [templatePlace, List.getElem?_cons_succ]
        exact ih cells2 j2

/-- Every cell of every template in the table has positive dimensions. -/
theorem templates_cells_pos {maxWidth : Nat} {tname : String} {cfg : TemplateConfig}
    (h : (templates maxWidth).lookup tname = some cfg) :
    ∀ cell ∈ cfg.positions, 0 < cell.width ∧ 0 < cell.height := by
  unfold templates at h
  simp only [List.lookup] at h
  split at h
  · obtain rfl := Option.some.injEq _ _ ▸ h
    intro cell hcell
    fin_cases hcell <;> exact ⟨by decide, by decide⟩
  · split at h
    · obtain rfl := Option.some.injEq _ _ ▸ h
      intro cell hcell
      fin_cases hcell <;> exact ⟨by decide, by decide⟩
    · split at h
      · obtain rfl := Option.some.injEq _ _ ▸ h
        intro cell hcell
        fin_cases hcell <;> exact ⟨by decide, by decide⟩
      · split at h
        · obtain rfl := Option.some.injEq _ _ ▸ h
          intro cell hcell
          fin_cases hcell <;> exact ⟨by decide, by decide⟩
        · split at h
          · obtain rfl := Option.some.injEq _ _ ▸ h
            intro cell hcell
            fin_cases hcell <;> exact ⟨by decide, by decide⟩
          · exact absurd h (by simp)

/-! ## Branch equations of the pipeline functions -/

theorem computeLayout_grid (imgs : List SourceImage) (spacing : Nat)
    (cwo cho : Option Int) (maxWidth : Nat) (cp : Option (List (Int × Int)))
    (seed : Option Int) (g : RNG) (hn : ¬(imgs.length < 2)) :
    computeLayout imgs .grid spacing cwo cho maxWidth cp seed g =
      .ok ⟨(ceilSqrt imgs.length * maxImgWidth imgs +
              (ceilSqrt imgs.length - 1) * spacing : Nat),
           (ceilDiv imgs.length (ceilSqrt imgs.length) * maxImgHeight imgs +
              (ceilDiv imgs.length (ceilSqrt imgs.length) - 1) * spacing : Nat),
           gridPlace imgs (ceilSqrt imgs.length) (maxImgWidth imgs)
             (maxImgHeight imgs) spacing⟩ := by
  unfold computeLayout
  rw [if_neg hn]

theorem computeLayout_horizontal (imgs : List SourceImage) (spacing : Nat)
    (cwo cho : Option Int) (maxWidth : Nat) (cp : Option (List (Int × Int)))
    (seed : Option Int) (g : RNG) (hn : ¬(imgs.length < 2)) :
    computeLayout imgs .horizontal spacing cwo cho maxWidth cp seed g =
      .ok ⟨(imgs.length * maxImgWidth imgs + (imgs.length - 1) * spacing : Nat),
           (maxImgHeight imgs : Nat),
           gridPlace imgs imgs.length (maxImgWidth imgs) (maxImgHeight imgs) spacing⟩ := by
  unfold computeLayout
  rw [if_neg hn]

theorem computeLayout_vertical (imgs : List SourceImage) (spacing : Nat)
    (cwo cho : Option Int) (maxWidth : Nat) (cp : Option (List (Int × Int)))
    (seed : Option Int) (g : RNG) (hn : ¬(imgs.length < 2)) :
    computeLayout imgs .vertical spacing cwo cho maxWidth cp seed g =
      .ok ⟨(maxImgWidth imgs : Nat),
           (imgs.length * maxImgHeight imgs + (imgs.length - 1) * spacing : Nat),
           gridPlace imgs 1 (maxImgWidth imgs) (maxImgHeight imgs) spacing⟩ := by
  unfold computeLayout
  rw [if_neg hn]

theorem computeLayout_mosaic (imgs : List SourceImage) (spacing : Nat)
    (cwo cho : Option Int) (maxWidth : Nat) (cp : Option (List (Int × Int)))
    (seed : Option Int) (g : RNG) (hn : ¬(imgs.length < 2)) :
    computeLayout imgs .mosaic spacing cwo cho maxWidth cp seed g =
      match mosaicRun (effectiveCanvas cwo cho maxWidth).1
          (effectiveCanvas cwo cho maxWidth).2 spacing imgs [] (seedFor seed g) with
      | .err e => .err e
      | .ok placed => .ok ⟨(effectiveCanvas cwo cho maxWidth).1,
          (effectiveCanvas cwo cho maxWidth).2, placed⟩ := by
  unfold computeLayout
  rw [if_neg hn]

theorem computeLayout_random (imgs : List SourceImage) (spacing : Nat)
    (cwo cho : Option Int) (maxWidth : Nat) (cp : Option (List (Int × Int)))
    (seed : Option Int) (g : RNG) (hn : ¬(imgs.length < 2)) :
    computeLayout imgs .random spacing cwo cho maxWidth cp seed g =
      match randomRun (effectiveCanvas cwo cho maxWidth).1
          (effectiveCanvas cwo cho maxWidth).2 imgs [] (seedFor seed g) with
      | .err e => .err e
      | .ok placed => .ok ⟨(effectiveCanvas cwo cho maxWidth).1,
          (effectiveCanvas cwo cho maxWidth).2, placed⟩ := by
  unfold computeLayout
  rw [if_neg hn]

theorem computeLayout_custom (imgs : List SourceImage) (spacing : Nat)
    (cwo cho : Option Int) (maxWidth : Nat) (cp : Option (List (Int × Int)))
    (seed : Option Int) (g : RNG) (hn : ¬(imgs.length < 2)) :
    computeLayout imgs .custom spacing cwo cho maxWidth cp seed g =
      match cp with
      | none => .err "Custom layout requires custom_positions for each image"
      | some ps =>
        if ps.length ≠ imgs.length then
          .err "Custom layout requires custom_positions for each image"
        else if !truthyI cwo || !truthyI cho then
          .err "Custom layout requires canvas_width and canvas_height"
        else
          .ok ⟨cwo.getD 0, cho.getD 0, customPlace imgs ps⟩ := by
  unfold computeLayout
  rw [if_neg hn]

theorem createCollage_eq (imgs : List SourceImage) (layout : Layout)
    (maxWidth spacing : Nat) (cwo cho : Option Int) (bg : List Char)
    (cp : Option (List (Int × Int))) (seed : Option Int) (g : RNG)
    (c : Int × Int × Int) (hn : ¬(imgs.length < 2))
    (hbg : parseHexColor bg = some c) :
    createCollage imgs layout maxWidth spacing cwo cho bg cp seed g =
      computeLayout (imgs.map fun img =>
          SourceImage.mk (thumbFit img.width img.height (maxWidth / 2) (maxWidth / 2)).1
            (thumbFit img.width img.height (maxWidth / 2) (maxWidth / 2)).2)
        layout spacing cwo cho maxWidth cp seed g := by
  unfold createCollage
  rw [if_neg hn]
  simp only [hbg]

theorem createCollageTemplate_eq (imgs : List SourceImage) (tname : String)
    (maxWidth : Nat) (bg : List Char) (c : Int × Int × Int) (cfg : TemplateConfig)
    (hn : ¬(imgs.length < 2)) (hbg : parseHexColor bg = some c)
    (hlookup : (templates maxWidth).lookup tname = some cfg) :
    createCollageTemplate imgs tname maxWidth bg =
      .ok ⟨cfg.canvasWidth, cfg.canvasHeight, templatePlace imgs cfg.positions⟩ := by
  unfold createCollageTemplate
  rw [if_neg hn]
  simp only [hbg, hlookup]

/-! ## Claim theorems -/

/-- C3: for every Grid request with `n ≥ 2` images the layout uses
`cols = ceil(sqrt n)` (the least `c` with `n ≤ c²`) and `rows = ceil(n/cols)`
(characterised by `n ≤ rows*cols` and `(rows-1)*cols < n`), the cell is the
maximum image width by the maximum image height, the canvas is
`cols*cellW + (cols-1)*spacing` by `rows*cellH + (rows-1)*spacing`, image `i`
sits row-major at cell `(i % cols, i / cols)` centered with offsets
`(cellDim - imgDim) / 2`; in particular four 100×100 images with spacing 10
give a 210×210 canvas. -/
theorem grid_layout_spec (imgs : List SourceImage) (spacing : Nat)
    (cwo cho : Option Int) (maxWidth : Nat) (cp : Option (List (Int × Int)))
    (seed : Option Int) (g : RNG) (hn : 2 ≤ imgs.length) :
    ∃ r, computeLayout imgs .grid spacing cwo cho maxWidth cp seed g = .ok r ∧
      (imgs.length ≤ ceilSqrt imgs.length * ceilSqrt imgs.length ∧
        ∀ m, imgs.length ≤ m * m → ceilSqrt imgs.length ≤ m) ∧
      (imgs.length ≤ ceilDiv imgs.length (ceilSqrt imgs.length) * ceilSqrt imgs.length ∧
        (ceilDiv imgs.length (ceilSqrt imgs.length) - 1) * ceilSqrt imgs.length <
          imgs.length) ∧
      (∀ img ∈ imgs, img.width ≤ maxImgWidth imgs ∧ img.height ≤ maxImgHeight imgs) ∧
      (∃ img ∈ imgs, maxImgWidth imgs = img.width) ∧
      (∃ img ∈ imgs, maxImgHeight imgs = img.height) ∧
      r.canvasWidth = (ceilSqrt imgs.length * maxImgWidth imgs +
        (ceilSqrt imgs.length - 1) * spacing : Nat) ∧
      r.canvasHeight = (ceilDiv imgs.length (ceilSqrt imgs.length) * maxImgHeight imgs +
        (ceilDiv imgs.length (ceilSqrt imgs.length) - 1) * spacing : Nat) ∧
      r.placements.length = imgs.length ∧
      (∀ j (img : SourceImage), imgs[j]? = some img →
        r.placements[j]? = some
          (⟨((j % ceilSqrt imgs.length) * (maxImgWidth imgs + spacing) +
              (maxImgWidth imgs - img.width) / 2 : Nat),
           ((j / ceilSqrt imgs.length) * (maxImgHeight imgs + spacing) +
              (maxImgHeight imgs - img.height) / 2 : Nat),
           img.width, img.height⟩ : Placement)) ∧
      computeLayout (List.replicate 4 ⟨100, 100⟩) .grid 10 none none 1200 none none g =
        .ok ⟨210, 210, [⟨0, 0, 100, 100⟩, ⟨110, 0, 100, 100⟩,
                        ⟨0, 110, 100, 100⟩, ⟨110, 110, 100, 100⟩]⟩ := by
  have hn2 : ¬(imgs.length < 2) := by omega
  rw [computeLayout_grid imgs spacing cwo cho maxWidth cp seed g hn2]
  have hsqrt := ceilSqrt_spec imgs.length
  have hcols : 0 < ceilSqrt imgs.length := by
    rcases Nat.eq_zero_or_pos (ceilSqrt imgs.length) with h0 | h
    · exfalso
      have h1 := hsqrt.1
      rw [h0] at h1
      omega
    · exact h
  have hdiv := ceilDiv_spec imgs.length (ceilSqrt imgs.length) hcols
  refine ⟨_, rfl, hsqrt, ⟨hdiv.1, hdiv.2 (by omega)⟩, ?_, ?_, ?_, rfl, rfl, ?_, ?_, ?_⟩
  · intro img hmem
    exact ⟨maxImgWidth_le imgs img hmem, maxImgHeight_le imgs img hmem⟩
  · exact maxImgWidth_mem imgs (by intro h0; rw [h0] at hn; simp at hn)
  · exact maxImgHeight_mem imgs (by intro h0; rw [h0] at hn; simp at hn)
  · exact gridPlace_length _ _ _ _ _
  · intro j img himg
    dsimp only
    rw [gridPlace_getElem, himg]
    rfl
  · have hv : ceilSqrt 4 = 2 := by
      have h := ceilSqrt_spec 4
      have h2 := h.2 2 (by norm_num)
      have h1 := h.1
      have h3 : 2 ≤ ceilSqrt 4 := by
        by_contra hlt
        push_neg at hlt
        have h4 : ceilSqrt 4 * ceilSqrt 4 ≤ 1 := by nlinarith
        omega
      omega
    rw [computeLayout_grid _ _ _ _ _ _ _ _ (by norm_num)]
    simp only [List.length_replicate]
    rw [hv]
    rfl

/-- C5: every Grid, Horizontal or Vertical request with `n ≥ 2` images yields
exactly `n` placements (one per image, in order) and every placement's
rectangle lies within `[0, canvasWidth) × [0, canvasHeight)`. -/
theorem ghv_placements_in_bounds (imgs : List SourceImage) (layout : Layout)
    (spacing : Nat) (cwo cho : Option Int) (maxWidth : Nat)
    (cp : Option (List (Int × Int))) (seed : Option Int) (g : RNG)
    (hl : layout = .grid ∨ layout = .horizontal ∨ layout = .vertical)
    (hn : 2 ≤ imgs.length) :
    ∃ r, computeLayout imgs layout spacing cwo cho maxWidth cp seed g = .ok r ∧
      r.placements.length = imgs.length ∧
      ∀ p ∈ r.placements, 0 ≤ p.x ∧ p.x + p.width ≤ r.canvasWidth ∧
        0 ≤ p.y ∧ p.y + p.height ≤ r.canvasHeight := by
  have hn2 : ¬(imgs.length < 2) := by omega
  have hfitW := maxImgWidth_le imgs
  have hfitH := maxImgHeight_le imgs
  rcases hl with rfl | rfl | rfl
  · rw [computeLayout_grid imgs spacing cwo cho maxWidth cp seed g hn2]
    have hsqrt := ceilSqrt_spec imgs.length
    have hcols : 0 < ceilSqrt imgs.length := by
      rcases Nat.eq_zero_or_pos (ceilSqrt imgs.length) with h0 | h
      · exfalso
        have h1 := hsqrt.1
        rw [h0] at h1
        omega
      · exact h
    have hdiv := ceilDiv_spec imgs.length (ceilSqrt imgs.length) hcols
    refine ⟨_, rfl, gridPlace_length _ _ _ _ _, ?_⟩
    intro p hp
    have hb := gridPlace_bounds imgs (ceilSqrt imgs.length)
      (ceilDiv imgs.length (ceilSqrt imgs.length)) (maxImgWidth imgs)
      (maxImgHeight imgs) spacing hcols hdiv.1
      (fun img hm => hfitW img hm) (fun img hm => hfitH img hm) p hp
    exact hb
  · rw [computeLayout_horizontal imgs spacing cwo cho maxWidth cp seed g hn2]
    refine ⟨_, rfl, gridPlace_length _ _ _ _ _, ?_⟩
    intro p hp
    have hb := gridPlace_bounds imgs imgs.length 1 (maxImgWidth imgs)
      (maxImgHeight imgs) spacing (by omega) (by omega)
      (fun img hm => hfitW img hm) (fun img hm => hfitH img hm) p hp
    obtain ⟨h1, h2, h3, h4⟩ := hb
    refine ⟨h1, h2, h3, ?_⟩
    have harith : (1 * maxImgHeight imgs + (1 - 1) * spacing : Nat) = maxImgHeight imgs := by
      omega
    rw [harith] at h4
    exact h4
  · rw [computeLayout_vertical imgs spacing cwo cho maxWidth cp seed g hn2]
    refine ⟨_, rfl, gridPlace_length _ _ _ _ _, ?_⟩
    intro p hp
    have hb := gridPlace_bounds imgs 1 imgs.length (maxImgWidth imgs)
      (maxImgHeight imgs) spacing (by omega) (by omega)
      (fun img hm => hfitW img hm) (fun img hm => hfitH img hm) p hp
    obtain ⟨h1, h2, h3, h4⟩ := hb
    refine ⟨h1, ?_, h3, h4⟩
    have harith : (1 * maxImgWidth imgs + (1 - 1) * spacing : Nat) = maxImgWidth imgs := by
      omega
    rw [harith] at h2
    exact h2

/-- C2 counterexample: `randomSeed = 0` is an integer seed for which two
mosaic invocations with identical inputs can disagree: the source's
`if random_seed:` treats `0` as falsy and skips `random.seed`, so the output
still depends on the ambient state of the process-global generator (modelled
by the two generator states below). -/
theorem mosaic_seed_zero_counterexample :
    computeLayout [⟨10, 10⟩, ⟨10, 10⟩] .mosaic 10 none none 1200 none (some 0)
        ⟨fun _ => 0, 0⟩ ≠
      computeLayout [⟨10, 10⟩, ⟨10, 10⟩] .mosaic 10 none none 1200 none (some 0)
        ⟨fun _ => 1, 0⟩ := by
  decide

/-- C2 amended: for every nonzero `randomSeed`, Mosaic mode is reseeded from
the request, so two invocations with the same seed and inputs produce the
same result whatever the ambient generator state was. -/
theorem mosaic_deterministic_nonzero_seed (imgs : List SourceImage)
    (spacing : Nat) (cwo cho : Option Int) (maxWidth : Nat)
    (cp : Option (List (Int × Int))) (s : Int) (hs : s ≠ 0) (g1 g2 : RNG) :
    computeLayout imgs .mosaic spacing cwo cho maxWidth cp (some s) g1 =
      computeLayout imgs .mosaic spacing cwo cho maxWidth cp (some s) g2 := by
  have h1 : seedFor (some s) g1 = seedRNG s := by simp [seedFor, hs]
  have h2 : seedFor (some s) g2 = seedRNG s := by simp [seedFor, hs]
  by_cases hn : imgs.length < 2
  · unfold computeLayout
    rw [if_pos hn, if_pos hn]
  · rw [computeLayout_mosaic _ _ _ _ _ _ _ _ hn,
        computeLayout_mosaic _ _ _ _ _ _ _ _ hn, h1, h2]

theorem mosaic_deterministic_nonzero_seed_witness :
    (1 : Int) ≠ 0 ∧
    computeLayout [⟨10, 10⟩, ⟨10, 10⟩] .mosaic 10 none none 1200 none (some 1)
        ⟨fun _ => 0, 0⟩ =
      computeLayout [⟨10, 10⟩, ⟨10, 10⟩] .mosaic 10 none none 1200 none (some 1)
        ⟨fun _ => 1, 0⟩ :=
  ⟨by decide, mosaic_deterministic_nonzero_seed [⟨10, 10⟩, ⟨10, 10⟩] 10 none none
    1200 none 1 (by decide) ⟨fun _ => 0, 0⟩ ⟨fun _ => 1, 0⟩⟩

/-- C10: in Mosaic and Random modes, whenever either canvas dimension is
absent or zero the supplied values are discarded and the canvas is the
`maxWidth × maxWidth` square; the explicit canvas takes effect exactly when
both dimensions are given and nonzero, and the canvas of a successful
mosaic/random layout is always `effectiveCanvas`. -/
theorem mosaic_random_canvas_sizing (cwo cho : Option Int) (maxWidth : Nat)
    (imgs : List SourceImage) (spacing : Nat) (cp : Option (List (Int × Int)))
    (seed : Option Int) (g : RNG) (r r2 : LayoutResult) :
    ((cwo = none ∨ cwo = some 0 ∨ cho = none ∨ cho = some 0) →
      effectiveCanvas cwo cho maxWidth = ((maxWidth : Int), (maxWidth : Int))) ∧
    (truthyI cwo = true → truthyI cho = true →
      effectiveCanvas cwo cho maxWidth = (cwo.getD 0, cho.getD 0)) ∧
    (computeLayout imgs .mosaic spacing cwo cho maxWidth cp seed g = .ok r →
      (r.canvasWidth, r.canvasHeight) = effectiveCanvas cwo cho maxWidth) ∧
    (computeLayout imgs .random spacing cwo cho maxWidth cp seed g = .ok r2 →
      (r2.canvasWidth, r2.canvasHeight) = effectiveCanvas cwo cho maxWidth) := by
  refine ⟨?_, ?_, ?_, ?_⟩
  · rintro (rfl | rfl | rfl | rfl) <;> simp [effectiveCanvas, truthyI]
  · intro h1 h2
    simp [effectiveCanvas, h1, h2]
  · intro h
    by_cases hn : imgs.length < 2
    · unfold computeLayout at h
      rw [if_pos hn] at h
      exact absurd h (by simp)
    · rw [computeLayout_mosaic _ _ _ _ _ _ _ _ hn] at h
      cases hrun : mosaicRun (effectiveCanvas cwo cho maxWidth).1
          (effectiveCanvas cwo cho maxWidth).2 spacing imgs [] (seedFor seed g) with
      | err e =>
        rw [hrun] at h
        exact absurd h (by simp)
      | ok placed =>
        rw [hrun] at h
        have hr := (Res.ok.injEq _ _).mp h
        rw [← hr]
  · intro h
    by_cases hn : imgs.length < 2
    · unfold computeLayout at h
      rw [if_pos hn] at h
      exact absurd h (by simp)
    · rw [computeLayout_random _ _ _ _ _ _ _ _ hn] at h
      cases hrun : randomRun (effectiveCanvas cwo cho maxWidth).1
          (effectiveCanvas cwo cho maxWidth).2 imgs [] (seedFor seed g) with
      | err e =>
        rw [hrun] at h
        exact absurd h (by simp)
      | ok placed =>
        rw [hrun] at h
        have hr := (Res.ok.injEq _ _).mp h
        rw [← hr]

theorem mosaic_random_canvas_sizing_witness :
    (((some (5 : Int)) = none ∨ (some (5 : Int)) = some 0 ∨
        (none : Option Int) = none ∨ (none : Option Int) = some 0) →
      effectiveCanvas (some 5) none 1200 = ((1200 : Int), (1200 : Int))) ∧
    (truthyI (some 5) = true → truthyI none = true →
      effectiveCanvas (some 5) none 1200 = ((some (5 : Int)).getD 0, (none : Option Int).getD 0)) ∧
    (computeLayout [⟨10, 10⟩, ⟨10, 10⟩] .mosaic 10 (some 5) none 1200 none none
        ⟨fun _ => 0, 0⟩ = .ok ⟨1200, 1200, [⟨0, 0, 10, 10⟩, ⟨0, 0, 10, 10⟩]⟩ →
      ((⟨1200, 1200, [⟨0, 0, 10, 10⟩, ⟨0, 0, 10, 10⟩]⟩ : LayoutResult).canvasWidth,
       (⟨1200, 1200, [⟨0, 0, 10, 10⟩, ⟨0, 0, 10, 10⟩]⟩ : LayoutResult).canvasHeight) =
        effectiveCanvas (some 5) none 1200) ∧
    (computeLayout [⟨10, 10⟩, ⟨10, 10⟩] .random 10 (some 5) none 1200 none none
        ⟨fun _ => 0, 0⟩ = .ok ⟨1200, 1200, [⟨0, 0, 10, 10⟩, ⟨0, 0, 10, 10⟩]⟩ →
      ((⟨1200, 1200, [⟨0, 0, 10, 10⟩, ⟨0, 0, 10, 10⟩]⟩ : LayoutResult).canvasWidth,
       (⟨1200, 1200, [⟨0, 0, 10, 10⟩, ⟨0, 0, 10, 10⟩]⟩ : LayoutResult).canvasHeight) =
        effectiveCanvas (some 5) none 1200) :=
  mosaic_random_canvas_sizing (some 5) none 1200 [⟨10, 10⟩, ⟨10, 10⟩] 10 none none
    ⟨fun _ => 0, 0⟩ ⟨1200, 1200, [⟨0, 0, 10, 10⟩, ⟨0, 0, 10, 10⟩]⟩
    ⟨1200, 1200, [⟨0, 0, 10, 10⟩, ⟨0, 0, 10, 10⟩]⟩

/-- C4 counterexample: the claim's overlap wording (both rectangles grown by
`spacing`) would demand a `2*spacing` gap and rejects the second image's
first draw at `x = 115` (gap `15 < 2*10` from the rectangle at `x = 0`,
width `100`), while the source accepts it (the source's test only requires a
gap of `spacing`): the two procedures produce different placements on the
same stream. -/
theorem mosaic_claim_overlap_counterexample :
    computeLayout [⟨100, 100⟩, ⟨100, 100⟩] .mosaic 10 (some 300) (some 100) 1200
        none none ⟨fun k => if k = 2 then 115 else 0, 0⟩ =
      .ok ⟨300, 100, [⟨0, 0, 100, 100⟩, ⟨115, 0, 100, 100⟩]⟩ ∧
    specMosaicLayout claimClash [⟨100, 100⟩, ⟨100, 100⟩] 10 (some 300) (some 100)
        1200 none ⟨fun k => if k = 2 then 115 else 0, 0⟩ =
      some ⟨300, 100, [⟨0, 0, 100, 100⟩, ⟨0, 0, 100, 100⟩]⟩ ∧
    (⟨300, 100, [⟨0, 0, 100, 100⟩, ⟨115, 0, 100, 100⟩]⟩ : LayoutResult) ≠
      ⟨300, 100, [⟨0, 0, 100, 100⟩, ⟨0, 0, 100, 100⟩]⟩ := by
  refine ⟨by decide, by decide, by decide⟩

/-- C4 amended: for every Mosaic request whose images all fit the effective
canvas, each image in order is placed by up to 50 draws of `(x, y)` uniform
over `[0, cw-w] × [0, ch-h]`, the first draw that stays at least `spacing`
away from every previously accepted rectangle (equivalently: whose rectangle
grown by `spacing` on all sides misses the previous unexpanded rectangles)
is accepted, and after 50 clashing attempts the last drawn position is
accepted without error — stated as agreement with the spec-side procedure
`specMosaicLayout sepClash`, whose attempt counter counts up exactly as the
spec describes. -/
theorem mosaic_procedure_spec (imgs : List SourceImage) (spacing : Nat)
    (cwo cho : Option Int) (maxWidth : Nat) (cp : Option (List (Int × Int)))
    (seed : Option Int) (g : RNG) (hn : 2 ≤ imgs.length)
    (hfit : ∀ img ∈ imgs,
      (img.width : Int) ≤ (effectiveCanvas cwo cho maxWidth).1 ∧
      (img.height : Int) ≤ (effectiveCanvas cwo cho maxWidth).2) :
    ∃ r, computeLayout imgs .mosaic spacing cwo cho maxWidth cp seed g = .ok r ∧
      specMosaicLayout sepClash imgs spacing cwo cho maxWidth seed g = some r := by
  obtain ⟨ps, g2, hrun, hspec⟩ :=
    mosaicRun_eq_specMosaicRun (effectiveCanvas cwo cho maxWidth).1
      (effectiveCanvas cwo cho maxWidth).2 spacing imgs hfit []
      (seedFor seed g)
  refine ⟨⟨(effectiveCanvas cwo cho maxWidth).1,
           (effectiveCanvas cwo cho maxWidth).2, ps⟩, ?_, ?_⟩
  · rw [computeLayout_mosaic _ _ _ _ _ _ _ _ (by omega), hrun]
  · unfold specMosaicLayout
    dsimp only
    rw [hspec]

theorem mosaic_procedure_spec_witness :
    (2 ≤ ([⟨10, 10⟩, ⟨10, 10⟩] : List SourceImage).length) ∧
    (∀ img ∈ ([⟨10, 10⟩, ⟨10, 10⟩] : List SourceImage),
      (img.width : Int) ≤ (effectiveCanvas none none 1200).1 ∧
      (img.height : Int) ≤ (effectiveCanvas none none 1200).2) ∧
    ∃ r, computeLayout [⟨10, 10⟩, ⟨10, 10⟩] .mosaic 10 none none 1200 none none
        ⟨fun _ => 0, 0⟩ = .ok r ∧
      specMosaicLayout sepClash [⟨10, 10⟩, ⟨10, 10⟩] 10 none none 1200 none
        ⟨fun _ => 0, 0⟩ = some r :=
  ⟨by decide, by decide,
    mosaic_procedure_spec [⟨10, 10⟩, ⟨10, 10⟩] 10 none none 1200 none none
      ⟨fun _ => 0, 0⟩ (by decide) (by decide)⟩

/-- C1 counterexample: images are pre-shrunk to a `(max_width // 2)`-square
box, not to the canvas, so a mosaic request with an explicit `100 × 100`
canvas and `600 × 600` images (untouched by the `600`-box pre-shrink) makes
`randint(0, canvas_width - img.width)` raise: the call errors instead of
placing every image inside the canvas. -/
theorem mosaic_preshrink_counterexample :
    createCollage [⟨600, 600⟩, ⟨600, 600⟩] .mosaic 1200 10 (some 100) (some 100)
        ['#', 'F', 'F', 'F', 'F', 'F', 'F'] none none ⟨fun _ => 0, 0⟩ =
      .err "empty range for randrange()" := by
  decide

/-- C1 amended: a Mosaic or Random request succeeds with every accepted
rectangle inside `[0, canvasWidth) × [0, canvasHeight)` provided every
pre-shrunk image fits the canvas — automatic when the canvas defaults to
`maxWidth × maxWidth` (the pre-shrink box is `maxWidth / 2`), and an explicit
hypothesis when both canvas dimensions are supplied nonzero. -/
theorem mosaic_random_success_in_bounds (imgs : List SourceImage) (layout : Layout)
    (maxWidth spacing : Nat) (cwo cho : Option Int) (bg : List Char)
    (cp : Option (List (Int × Int))) (seed : Option Int) (g : RNG)
    (c : Int × Int × Int)
    (hl : layout = .mosaic ∨ layout = .random)
    (hn : 2 ≤ imgs.length) (hmw : 2 ≤ maxWidth)
    (hdims : ∀ img ∈ imgs, 0 < img.width ∧ 0 < img.height)
    (hbg : parseHexColor bg = some c)
    (hfit : truthyI cwo = true → truthyI cho = true →
      ∀ img ∈ imgs,
        ((thumbFit img.width img.height (maxWidth / 2) (maxWidth / 2)).1 : Int) ≤
          (effectiveCanvas cwo cho maxWidth).1 ∧
        ((thumbFit img.width img.height (maxWidth / 2) (maxWidth / 2)).2 : Int) ≤
          (effectiveCanvas cwo cho maxWidth).2) :
    ∃ r, createCollage imgs layout maxWidth spacing cwo cho bg cp seed g = .ok r ∧
      r.placements.length = imgs.length ∧
      ∀ p ∈ r.placements, 0 ≤ p.x ∧ p.x + p.width ≤ r.canvasWidth ∧
        0 ≤ p.y ∧ p.y + p.height ≤ r.canvasHeight := by
  have hn2 : ¬(imgs.length < 2) := by omega
  rw [createCollage_eq imgs layout maxWidth spacing cwo cho bg cp seed g c hn2 hbg]
  have hlen : (imgs.map fun img =>
      SourceImage.mk (thumbFit img.width img.height (maxWidth / 2) (maxWidth / 2)).1
        (thumbFit img.width img.height (maxWidth / 2) (maxWidth / 2)).2).length =
      imgs.length := List.length_map _ _
  have hfits : ∀ img2 ∈ (imgs.map fun img =>
      SourceImage.mk (thumbFit img.width img.height (maxWidth / 2) (maxWidth / 2)).1
        (thumbFit img.width img.height (maxWidth / 2) (maxWidth / 2)).2),
      (img2.width : Int) ≤ (effectiveCanvas cwo cho maxWidth).1 ∧
      (img2.height : Int) ≤ (effectiveCanvas cwo cho maxWidth).2 := by
    intro img2 hm
    obtain ⟨img, hmem, rfl⟩ := List.mem_map.mp hm
    by_cases htw : truthyI cwo = true ∧ truthyI cho = true
    · exact hfit htw.1 htw.2 img hmem
    · have hcondT : (!truthyI cwo || !truthyI cho) = true := by
        rcases not_and_or.mp htw with h | h <;>
          simp [Bool.eq_false_iff.mpr h]
      have heff : effectiveCanvas cwo cho maxWidth = ((maxWidth : Int), (maxWidth : Int)) := by
        unfold effectiveCanvas
        rw [if_pos hcondT]
      rw [heff]
      have hmw2 : 0 < maxWidth / 2 := by omega
      obtain ⟨hw, hh⟩ := hdims img hmem
      have hbox := thumbFit_le_box hw hh hmw2 hmw2
      have hdle : maxWidth / 2 ≤ maxWidth := Nat.div_le_self _ _
      constructor
      · dsimp only
        have : (thumbFit img.width img.height (maxWidth / 2) (maxWidth / 2)).1 ≤ maxWidth := by
          omega
        exact_mod_cast this
      · dsimp only
        have : (thumbFit img.width img.height (maxWidth / 2) (maxWidth / 2)).2 ≤ maxWidth := by
          omega
        exact_mod_cast this
  rcases hl with rfl | rfl
  · rw [computeLayout_mosaic _ _ _ _ _ _ _ _ (by omega)]
    obtain ⟨ps, hrun, hlen2, hb⟩ := mosaicRun_ok hfits [] (seedFor seed g)
    rw [hrun]
    refine ⟨_, rfl, ?_, ?_⟩
    · dsimp only
      simp only [List.length_nil] at hlen2
      omega
    · intro p hp
      dsimp only at hp
      rcases hb p hp with hmem | hbnd
      · exact absurd hmem (List.not_mem_nil p)
      · exact hbnd
  · rw [computeLayout_random _ _ _ _ _ _ _ _ (by omega)]
    obtain ⟨ps, hrun, hlen2, hb⟩ := randomRun_ok hfits [] (seedFor seed g)
    rw [hrun]
    refine ⟨_, rfl, ?_, ?_⟩
    · dsimp only
      simp only [List.length_nil] at hlen2
      omega
    · intro p hp
      dsimp only at hp
      rcases hb p hp with hmem | hbnd
      · exact absurd hmem (List.not_mem_nil p)
      · exact hbnd

theorem mosaic_random_success_in_bounds_witness :
    (Layout.mosaic = Layout.mosaic ∨ Layout.mosaic = Layout.random) ∧
    (2 ≤ ([⟨600, 600⟩, ⟨600, 600⟩] : List SourceImage).length) ∧ (2 ≤ 1200) ∧
    (∀ img ∈ ([⟨600, 600⟩, ⟨600, 600⟩] : List SourceImage),
      0 < img.width ∧ 0 < img.height) ∧
    parseHexColor ['#', 'F', 'F', 'F', 'F', 'F', 'F'] = some (255, 255, 255) ∧
    (truthyI none = true → truthyI none = true →
      ∀ img ∈ ([⟨600, 600⟩, ⟨600, 600⟩] : List SourceImage),
        ((thumbFit img.width img.height (1200 / 2) (1200 / 2)).1 : Int) ≤
          (effectiveCanvas none none 1200).1 ∧
        ((thumbFit img.width img.height (1200 / 2) (1200 / 2)).2 : Int) ≤
          (effectiveCanvas none none 1200).2) ∧
    ∃ r, createCollage [⟨600, 600⟩, ⟨600, 600⟩] .mosaic 1200 10 none none
        ['#', 'F', 'F', 'F', 'F', 'F', 'F'] none none ⟨fun _ => 0, 0⟩ = .ok r ∧
      r.placements.length = ([⟨600, 600⟩, ⟨600, 600⟩] : List SourceImage).length ∧
      ∀ p ∈ r.placements, 0 ≤ p.x ∧ p.x + p.width ≤ r.canvasWidth ∧
        0 ≤ p.y ∧ p.y + p.height ≤ r.canvasHeight :=
  ⟨Or.inl rfl, by decide, by decide, by decide, by decide, by decide,
    mosaic_random_success_in_bounds [⟨600, 600⟩, ⟨600, 600⟩] .mosaic 1200 10
      none none ['#', 'F', 'F', 'F', 'F', 'F', 'F'] none none ⟨fun _ => 0, 0⟩
      (255, 255, 255) (Or.inl rfl) (by decide) (by decide) (by decide) (by decide)
      (by decide)⟩

theorem grid_layout_spec_witness :
    (2 ≤ ([⟨100, 100⟩, ⟨50, 80⟩] : List SourceImage).length) ∧
    (∃ r, computeLayout [⟨100, 100⟩, ⟨50, 80⟩] .grid 10 none none 1200 none none
        ⟨fun _ => 0, 0⟩ = .ok r ∧
      (([⟨100, 100⟩, ⟨50, 80⟩] : List SourceImage).length ≤
          ceilSqrt ([⟨100, 100⟩, ⟨50, 80⟩] : List SourceImage).length *
          ceilSqrt ([⟨100, 100⟩, ⟨50, 80⟩] : List SourceImage).length ∧
        ∀ m, ([⟨100, 100⟩, ⟨50, 80⟩] : List SourceImage).length ≤ m * m →
          ceilSqrt ([⟨100, 100⟩, ⟨50, 80⟩] : List SourceImage).length ≤ m) ∧
      (([⟨100, 100⟩, ⟨50, 80⟩] : List SourceImage).length ≤
          ceilDiv ([⟨100, 100⟩, ⟨50, 80⟩] : List SourceImage).length
            (ceilSqrt ([⟨100, 100⟩, ⟨50, 80⟩] : List SourceImage).length) *
          ceilSqrt ([⟨100, 100⟩, ⟨50, 80⟩] : List SourceImage).length ∧
        (ceilDiv ([⟨100, 100⟩, ⟨50, 80⟩] : List SourceImage).length
            (ceilSqrt ([⟨100, 100⟩, ⟨50, 80⟩] : List SourceImage).length) - 1) *
          ceilSqrt ([⟨100, 100⟩, ⟨50, 80⟩] : List SourceImage).length <
          ([⟨100, 100⟩, ⟨50, 80⟩] : List SourceImage).length) ∧
      (∀ img ∈ ([⟨100, 100⟩, ⟨50, 80⟩] : List SourceImage),
        img.width ≤ maxImgWidth [⟨100, 100⟩, ⟨50, 80⟩] ∧
        img.height ≤ maxImgHeight [⟨100, 100⟩, ⟨50, 80⟩]) ∧
      (∃ img ∈ ([⟨100, 100⟩, ⟨50, 80⟩] : List SourceImage),
        maxImgWidth [⟨100, 100⟩, ⟨50, 80⟩] = img.width) ∧
      (∃ img ∈ ([⟨100, 100⟩, ⟨50, 80⟩] : List SourceImage),
        maxImgHeight [⟨100, 100⟩, ⟨50, 80⟩] = img.height) ∧
      r.canvasWidth = (ceilSqrt ([⟨100, 100⟩, ⟨50, 80⟩] : List SourceImage).length *
        maxImgWidth [⟨100, 100⟩, ⟨50, 80⟩] +
        (ceilSqrt ([⟨100, 100⟩, ⟨50, 80⟩] : List SourceImage).length - 1) * 10 : Nat) ∧
      r.canvasHeight = (ceilDiv ([⟨100, 100⟩, ⟨50, 80⟩] : List SourceImage).length
          (ceilSqrt ([⟨100, 100⟩, ⟨50, 80⟩] : List SourceImage).length) *
        maxImgHeight [⟨100, 100⟩, ⟨50, 80⟩] +
        (ceilDiv ([⟨100, 100⟩, ⟨50, 80⟩] : List SourceImage).length
          (ceilSqrt ([⟨100, 100⟩, ⟨50, 80⟩] : List SourceImage).length) - 1) * 10 : Nat) ∧
      r.placements.length = ([⟨100, 100⟩, ⟨50, 80⟩] : List SourceImage).length ∧
      (∀ j (img : SourceImage), ([⟨100, 100⟩, ⟨50, 80⟩] : List SourceImage)[j]? = some img →
        r.placements[j]? = some
          (⟨((j % ceilSqrt ([⟨100, 100⟩, ⟨50, 80⟩] : List SourceImage).length) *
              (maxImgWidth [⟨100, 100⟩, ⟨50, 80⟩] + 10) +
              (maxImgWidth [⟨100, 100⟩, ⟨50, 80⟩] - img.width) / 2 : Nat),
           ((j / ceilSqrt ([⟨100, 100⟩, ⟨50, 80⟩] : List SourceImage).length) *
              (maxImgHeight [⟨100, 100⟩, ⟨50, 80⟩] + 10) +
              (maxImgHeight [⟨100, 100⟩, ⟨50, 80⟩] - img.height) / 2 : Nat),
           img.width, img.height⟩ : Placement)) ∧
      computeLayout (List.replicate 4 ⟨100, 100⟩) .grid 10 none none 1200 none none
          ⟨fun _ => 0, 0⟩ =
        .ok ⟨210, 210, [⟨0, 0, 100, 100⟩, ⟨110, 0, 100, 100⟩,
                        ⟨0, 110, 100, 100⟩, ⟨110, 110, 100, 100⟩]⟩) :=
  ⟨by decide, grid_layout_spec [⟨100, 100⟩, ⟨50, 80⟩] 10 none none 1200 none none
    ⟨fun _ => 0, 0⟩ (by decide)⟩

theorem ghv_placements_in_bounds_witness :
    (Layout.horizontal = Layout.grid ∨ Layout.horizontal = Layout.horizontal ∨
      Layout.horizontal = Layout.vertical) ∧
    (2 ≤ ([⟨100, 100⟩, ⟨100, 100⟩, ⟨100, 100⟩] : List SourceImage).length) ∧
    ∃ r, computeLayout [⟨100, 100⟩, ⟨100, 100⟩, ⟨100, 100⟩] .horizontal 10 none none
        1200 none none ⟨fun _ => 0, 0⟩ = .ok r ∧
      r.placements.length = ([⟨100, 100⟩, ⟨100, 100⟩, ⟨100, 100⟩] : List SourceImage).length ∧
      ∀ p ∈ r.placements, 0 ≤ p.x ∧ p.x + p.width ≤ r.canvasWidth ∧
        0 ≤ p.y ∧ p.y + p.height ≤ r.canvasHeight :=
  ⟨Or.inr (Or.inl rfl), by decide,
    ghv_placements_in_bounds [⟨100, 100⟩, ⟨100, 100⟩, ⟨100, 100⟩] .horizontal 10
      none none 1200 none none ⟨fun _ => 0, 0⟩ (Or.inr (Or.inl rfl)) (by decide)⟩

/-- C6 counterexample: a Mosaic request with an explicit `100 × 100` canvas
and `600 × 600` images fails (empty `randint` range) although it has two
images and is not Custom mode: the layout computation can fail outside the
claim's enumerated validation conditions. -/
theorem validation_exactly_when_counterexample :
    (computeLayout [⟨600, 600⟩, ⟨600, 600⟩] .mosaic 10 (some 100) (some 100) 1200
        none none ⟨fun _ => 0, 0⟩).isOk = false ∧
    ¬(([⟨600, 600⟩, ⟨600, 600⟩] : List SourceImage).length < 2) ∧
    Layout.mosaic ≠ Layout.custom := by
  refine ⟨by decide, by decide, by decide⟩

/-- C6 amended: over requests whose optional canvas dimensions are positive
when present (the spec's data model), the layout computation fails exactly
when `images.length < 2`, or in Custom mode when `customPositions` is absent
or of the wrong length or a canvas dimension is absent, or in Mosaic/Random
mode when some image exceeds the effective canvas (empty draw range); in
particular Custom mode with 2 images and 1 custom position fails. -/
theorem computeLayout_err_characterization (imgs : List SourceImage)
    (layout : Layout) (spacing : Nat) (cwo cho : Option Int) (maxWidth : Nat)
    (cp : Option (List (Int × Int))) (seed : Option Int) (g : RNG)
    (hcw : ∀ v, cwo = some v → 0 < v) (hch : ∀ v, cho = some v → 0 < v) :
    ((computeLayout imgs layout spacing cwo cho maxWidth cp seed g).isOk = false ↔
      (imgs.length < 2 ∨
       (layout = .custom ∧ (cp = none ∨ (∃ l, cp = some l ∧ l.length ≠ imgs.length) ∨
          cwo = none ∨ cho = none)) ∨
       ((layout = .mosaic ∨ layout = .random) ∧ ∃ img ∈ imgs,
          (effectiveCanvas cwo cho maxWidth).1 < (img.width : Int) ∨
          (effectiveCanvas cwo cho maxWidth).2 < (img.height : Int)))) ∧
    (computeLayout [⟨100, 100⟩, ⟨100, 100⟩] .custom 10 (some 500) (some 500) 1200
        (some [(0, 0)]) none ⟨fun _ => 0, 0⟩).isOk = false := by
  refine ⟨?_, by decide⟩
  by_cases hn : imgs.length < 2
  · unfold computeLayout
    rw [if_pos hn]
    exact iff_of_true rfl (Or.inl hn)
  · cases layout with
    | grid =>
      rw [computeLayout_grid _ _ _ _ _ _ _ _ hn]
      apply iff_of_false (by simp [Res.isOk])
      rintro (h | ⟨hc, -⟩ | ⟨hml, -⟩)
      · omega
      · exact Layout.noConfusion hc
      · rcases hml with h | h <;> exact Layout.noConfusion h
    | horizontal =>
      rw [computeLayout_horizontal _ _ _ _ _ _ _ _ hn]
      apply iff_of_false (by simp [Res.isOk])
      rintro (h | ⟨hc, -⟩ | ⟨hml, -⟩)
      · omega
      · exact Layout.noConfusion hc
      · rcases hml with h | h <;> exact Layout.noConfusion h
    | vertical =>
      rw [computeLayout_vertical _ _ _ _ _ _ _ _ hn]
      apply iff_of_false (by simp [Res.isOk])
      rintro (h | ⟨hc, -⟩ | ⟨hml, -⟩)
      · omega
      · exact Layout.noConfusion hc
      · rcases hml with h | h <;> exact Layout.noConfusion h
    | mosaic =>
      rw [computeLayout_mosaic _ _ _ _ _ _ _ _ hn]
      cases hrun : mosaicRun (effectiveCanvas cwo cho maxWidth).1
          (effectiveCanvas cwo cho maxWidth).2 spacing imgs [] (seedFor seed g) with
      | err e =>
        apply iff_of_true rfl
        right; right
        refine ⟨Or.inl rfl, ?_⟩
        exact (mosaicRun_err_iff (effectiveCanvas cwo cho maxWidth).1 (effectiveCanvas cwo cho maxWidth).2 spacing imgs [] (seedFor seed g)).mp (by rw [hrun]; rfl)
      | ok placed =>
        apply iff_of_false (by simp [Res.isOk])
        rintro (h | ⟨hc, -⟩ | ⟨-, hex⟩)
        · omega
        · exact Layout.noConfusion hc
        · have hbad := (mosaicRun_err_iff (effectiveCanvas cwo cho maxWidth).1 (effectiveCanvas cwo cho maxWidth).2 spacing imgs [] (seedFor seed g)).mpr hex
          rw [hrun] at hbad
          simp [Res.isOk] at hbad
    | random =>
      rw [computeLayout_random _ _ _ _ _ _ _ _ hn]
      cases hrun : randomRun (effectiveCanvas cwo cho maxWidth).1
          (effectiveCanvas cwo cho maxWidth).2 imgs [] (seedFor seed g) with
      | err e =>
        apply iff_of_true rfl
        right; right
        refine ⟨Or.inr rfl, ?_⟩
        exact (randomRun_err_iff imgs [] (seedFor seed g)).mp (by rw [hrun]; rfl)
      | ok placed =>
        apply iff_of_false (by simp [Res.isOk])
        rintro (h | ⟨hc, -⟩ | ⟨-, hex⟩)
        · omega
        · exact Layout.noConfusion hc
        · have hbad := (randomRun_err_iff imgs [] (seedFor seed g)).mpr hex
          rw [hrun] at hbad
          simp [Res.isOk] at hbad
    | custom =>
      rw [computeLayout_custom _ _ _ _ _ _ _ _ hn]
      cases cp with
      | none =>
        exact iff_of_true rfl (Or.inr (Or.inl ⟨rfl, Or.inl rfl⟩))
      | some ps =>
        dsimp only
        by_cases hlen : ps.length ≠ imgs.length
        · rw [if_pos hlen]
          exact iff_of_true rfl
            (Or.inr (Or.inl ⟨rfl, Or.inr (Or.inl ⟨ps, rfl, hlen⟩)⟩))
        · rw [if_neg hlen]
          by_cases htr : (!truthyI cwo || !truthyI cho) = true
          · rw [if_pos htr]
            apply iff_of_true rfl
            right; left
            refine ⟨rfl, ?_⟩
            simp only [Bool.or_eq_true, Bool.not_eq_true'] at htr
            rcases htr with h | h
            · right; right; left
              cases cwo with
              | none => rfl
              | some v =>
                exfalso
                have hv := hcw v rfl
                simp [truthyI] at h
                omega
            · right; right; right
              cases cho with
              | none => rfl
              | some v =>
                exfalso
                have hv := hch v rfl
                simp [truthyI] at h
                omega
          · rw [if_neg htr]
            apply iff_of_false (by simp [Res.isOk])
            rintro (h | ⟨-, hbad⟩ | ⟨hml, -⟩)
            · omega
            · rcases hbad with hnone | ⟨l, hl, hne⟩ | hcwn | hchn
              · exact Option.noConfusion hnone
              · have : l = ps := by
                  injection hl with h2
                  exact h2.symm
                subst this
                exact hlen hne
              · exact htr (by rw [hcwn]; rfl)
              · exact htr (by rw [hchn]; simp [truthyI])
            · rcases hml with h | h <;> exact Layout.noConfusion h

theorem computeLayout_err_characterization_witness :
    (∀ v, (some (100 : Int)) = some v → 0 < v) ∧
    (∀ v, (some (100 : Int)) = some v → 0 < v) ∧
    (((computeLayout [⟨600, 600⟩, ⟨600, 600⟩] .mosaic 10 (some 100) (some 100) 1200
        none none ⟨fun _ => 0, 0⟩).isOk = false ↔
      (([⟨600, 600⟩, ⟨600, 600⟩] : List SourceImage).length < 2 ∨
       (Layout.mosaic = .custom ∧ ((none : Option (List (Int × Int))) = none ∨
          (∃ l, (none : Option (List (Int × Int))) = some l ∧
            l.length ≠ ([⟨600, 600⟩, ⟨600, 600⟩] : List SourceImage).length) ∨
          (some (100 : Int)) = none ∨ (some (100 : Int)) = none)) ∨
       ((Layout.mosaic = .mosaic ∨ Layout.mosaic = .random) ∧
        ∃ img ∈ ([⟨600, 600⟩, ⟨600, 600⟩] : List SourceImage),
          (effectiveCanvas (some 100) (some 100) 1200).1 < (img.width : Int) ∨
          (effectiveCanvas (some 100) (some 100) 1200).2 < (img.height : Int)))) ∧
    (computeLayout [⟨100, 100⟩, ⟨100, 100⟩] .custom 10 (some 500) (some 500) 1200
        (some [(0, 0)]) none ⟨fun _ => 0, 0⟩).isOk = false) :=
  ⟨by decide, by decide,
    computeLayout_err_characterization [⟨600, 600⟩, ⟨600, 600⟩] .mosaic 10
      (some 100) (some 100) 1200 none none ⟨fun _ => 0, 0⟩
      (by intro v hv; injection hv with h2; omega)
      (by intro v hv; injection hv with h2; omega)⟩

/-- C7: when more images than template cells are supplied the extras are
silently dropped (zip-shortest): the result has exactly one placement per
cell and no error is raised; with fewer images every one of the first
`images.length` cells receives one image; in particular `photo_wall` with 8
images yields exactly 6 placements without error. -/
theorem template_truncation (tname : String) (cfg : TemplateConfig)
    (imgs : List SourceImage) (maxWidth : Nat) (bg : List Char)
    (c : Int × Int × Int)
    (hlookup : (templates maxWidth).lookup tname = some cfg)
    (hn : 2 ≤ imgs.length) (hbg : parseHexColor bg = some c) :
    ∃ r, createCollageTemplate imgs tname maxWidth bg = .ok r ∧
      r.placements.length = min imgs.length cfg.positions.length ∧
      (cfg.positions.length ≤ imgs.length →
        r.placements.length = cfg.positions.length) ∧
      (imgs.length ≤ cfg.positions.length →
        r.placements.length = imgs.length) ∧
      placementCount (createCollageTemplate (List.replicate 8 ⟨100, 100⟩)
        "photo_wall" 1200 ['#', 'F', 'F', 'F', 'F', 'F', 'F']) = 6 ∧
      (createCollageTemplate (List.replicate 8 ⟨100, 100⟩) "photo_wall" 1200
        ['#', 'F', 'F', 'F', 'F', 'F', 'F']).isOk = true := by
  rw [createCollageTemplate_eq imgs tname maxWidth bg c cfg (by omega) hbg hlookup]
  refine ⟨_, rfl, ?_, ?_, ?_, by decide, by decide⟩
  · dsimp only
    exact templatePlace_length imgs cfg.positions
  · intro h
    dsimp only
    rw [templatePlace_length]
    omega
  · intro h
    dsimp only
    rw [templatePlace_length]
    omega

theorem template_truncation_witness :
    (templates 1200).lookup "photo_wall" = some
      ⟨1200, 1200,
       [⟨50, 50, 300, 300⟩, ⟨400, 50, 300, 300⟩, ⟨750, 50, 300, 300⟩,
        ⟨50, 400, 300, 300⟩, ⟨400, 400, 300, 300⟩, ⟨750, 400, 300, 300⟩]⟩ ∧
    (2 ≤ (List.replicate 8 (⟨100, 100⟩ : SourceImage)).length) ∧
    parseHexColor ['#', 'F', 'F', 'F', 'F', 'F', 'F'] = some (255, 255, 255) ∧
    ∃ r, createCollageTemplate (List.replicate 8 ⟨100, 100⟩) "photo_wall" 1200
        ['#', 'F', 'F', 'F', 'F', 'F', 'F'] = .ok r ∧
      r.placements.length = min (List.replicate 8 (⟨100, 100⟩ : SourceImage)).length
        (⟨1200, 1200,
          [⟨50, 50, 300, 300⟩, ⟨400, 50, 300, 300⟩, ⟨750, 50, 300, 300⟩,
           ⟨50, 400, 300, 300⟩, ⟨400, 400, 300, 300⟩, ⟨750, 400, 300, 300⟩]⟩ :
          TemplateConfig).positions.length ∧
      ((⟨1200, 1200,
          [⟨50, 50, 300, 300⟩, ⟨400, 50, 300, 300⟩, ⟨750, 50, 300, 300⟩,
           ⟨50, 400, 300, 300⟩, ⟨400, 400, 300, 300⟩, ⟨750, 400, 300, 300⟩]⟩ :
          TemplateConfig).positions.length ≤
          (List.replicate 8 (⟨100, 100⟩ : SourceImage)).length →
        r.placements.length = (⟨1200, 1200,
          [⟨50, 50, 300, 300⟩, ⟨400, 50, 300, 300⟩, ⟨750, 50, 300, 300⟩,
           ⟨50, 400, 300, 300⟩, ⟨400, 400, 300, 300⟩, ⟨750, 400, 300, 300⟩]⟩ :
          TemplateConfig).positions.length) ∧
      ((List.replicate 8 (⟨100, 100⟩ : SourceImage)).length ≤
          (⟨1200, 1200,
            [⟨50, 50, 300, 300⟩, ⟨400, 50, 300, 300⟩, ⟨750, 50, 300, 300⟩,
             ⟨50, 400, 300, 300⟩, ⟨400, 400, 300, 300⟩, ⟨750, 400, 300, 300⟩]⟩ :
            TemplateConfig).positions.length →
        r.placements.length = (List.replicate 8 (⟨100, 100⟩ : SourceImage)).length) ∧
      placementCount (createCollageTemplate (List.replicate 8 ⟨100, 100⟩)
        "photo_wall" 1200 ['#', 'F', 'F', 'F', 'F', 'F', 'F']) = 6 ∧
      (createCollageTemplate (List.replicate 8 ⟨100, 100⟩) "photo_wall" 1200
        ['#', 'F', 'F', 'F', 'F', 'F', 'F']).isOk = true :=
  ⟨by decide, by decide, by decide,
    template_truncation "photo_wall" _ (List.replicate 8 ⟨100, 100⟩) 1200
      ['#', 'F', 'F', 'F', 'F', 'F', 'F'] (255, 255, 255) (by decide) (by decide)
      (by decide)⟩

/-- C8: template image `i` is assigned to cell `i` in order; its dimensions
are the `thumbnail` shrink-to-fit of the original into the cell (never
exceeding the cell and never enlarged beyond the original, both dimensions
staying positive), and it is centered in the cell at offsets
`(cellDim - resizedDim) / 2` added to the cell's corner. -/
theorem template_cell_placement (tname : String) (cfg : TemplateConfig)
    (imgs : List SourceImage) (maxWidth : Nat) (bg : List Char)
    (c : Int × Int × Int) (j : Nat) (img : SourceImage) (cell : Cell)
    (hlookup : (templates maxWidth).lookup tname = some cfg)
    (hn : 2 ≤ imgs.length) (hbg : parseHexColor bg = some c)
    (himg : imgs[j]? = some img) (hcell : cfg.positions[j]? = some cell)
    (hw : 0 < img.width) (hh : 0 < img.height) :
    ∃ r, createCollageTemplate imgs tname maxWidth bg = .ok r ∧
      r.placements[j]? = some
        (⟨cell.x + ((cell.width -
            (thumbFit img.width img.height cell.width cell.height).1) / 2 : Nat),
          cell.y + ((cell.height -
            (thumbFit img.width img.height cell.width cell.height).2) / 2 : Nat),
          (thumbFit img.width img.height cell.width cell.height).1,
          (thumbFit img.width img.height cell.width cell.height).2⟩ : Placement) ∧
      (thumbFit img.width img.height cell.width cell.height).1 ≤ cell.width ∧
      (thumbFit img.width img.height cell.width cell.height).1 ≤ img.width ∧
      (thumbFit img.width img.height cell.width cell.height).2 ≤ cell.height ∧
      (thumbFit img.width img.height cell.width cell.height).2 ≤ img.height ∧
      0 < (thumbFit img.width img.height cell.width cell.height).1 ∧
      0 < (thumbFit img.width img.height cell.width cell.height).2 := by
  have hcellmem : cell ∈ cfg.positions := by
    have hlt : j < cfg.positions.length := by
      by_contra hge
      push_neg at hge
      rw [List.getElem?_eq_none hge] at hcell
      exact Option.noConfusion hcell
    have := List.getElem?_eq_getElem hlt
    rw [this] at hcell
    have heq := Option.some.injEq _ _ ▸ hcell
    rw [← heq]
    exact List.getElem_mem hlt
  obtain ⟨hcw, hchh⟩ := templates_cells_pos hlookup cell hcellmem
  rw [createCollageTemplate_eq imgs tname maxWidth bg c cfg (by omega) hbg hlookup]
  refine ⟨_, rfl, ?_, (thumbFit_le_box hw hh hcw hchh).1,
    (thumbFit_le_src hw hh hcw hchh).1, (thumbFit_le_box hw hh hcw hchh).2,
    (thumbFit_le_src hw hh hcw hchh).2, (thumbFit_pos hw hh hcw hchh).1,
    (thumbFit_pos hw hh hcw hchh).2⟩
  dsimp only
  rw [templatePlace_getElem, himg, hcell]
  rfl

theorem template_cell_placement_witness :
    (templates 1200).lookup "storyboard" = some
      ⟨1200, 400,
       [⟨20, 20, 180, 180⟩, ⟨220, 20, 180, 180⟩, ⟨420, 20, 180, 180⟩,
        ⟨620, 20, 180, 180⟩, ⟨820, 20, 180, 180⟩, ⟨1020, 20, 180, 180⟩]⟩ ∧
    (2 ≤ ([⟨400, 200⟩, ⟨100, 100⟩] : List SourceImage).length) ∧
    parseHexColor ['#', 'F', 'F', 'F', 'F', 'F', 'F'] = some (255, 255, 255) ∧
    ([⟨400, 200⟩, ⟨100, 100⟩] : List SourceImage)[0]? = some ⟨400, 200⟩ ∧
    (⟨1200, 400,
       [⟨20, 20, 180, 180⟩, ⟨220, 20, 180, 180⟩, ⟨420, 20, 180, 180⟩,
        ⟨620, 20, 180, 180⟩, ⟨820, 20, 180, 180⟩, ⟨1020, 20, 180, 180⟩]⟩ :
      TemplateConfig).positions[0]? = some ⟨20, 20, 180, 180⟩ ∧
    (0 < (400 : Nat)) ∧ (0 < (200 : Nat)) ∧
    ∃ r, createCollageTemplate [⟨400, 200⟩, ⟨100, 100⟩] "storyboard" 1200
        ['#', 'F', 'F', 'F', 'F', 'F', 'F'] = .ok r ∧
      r.placements[0]? = some
        (⟨(⟨20, 20, 180, 180⟩ : Cell).x + (((⟨20, 20, 180, 180⟩ : Cell).width -
            (thumbFit 400 200 180 180).1) / 2 : Nat),
          (⟨20, 20, 180, 180⟩ : Cell).y + (((⟨20, 20, 180, 180⟩ : Cell).height -
            (thumbFit 400 200 180 180).2) / 2 : Nat),
          (thumbFit 400 200 180 180).1, (thumbFit 400 200 180 180).2⟩ : Placement) ∧
      (thumbFit 400 200 180 180).1 ≤ (⟨20, 20, 180, 180⟩ : Cell).width ∧
      (thumbFit 400 200 180 180).1 ≤ 400 ∧
      (thumbFit 400 200 180 180).2 ≤ (⟨20, 20, 180, 180⟩ : Cell).height ∧
      (thumbFit 400 200 180 180).2 ≤ 200 ∧
      0 < (thumbFit 400 200 180 180).1 ∧ 0 < (thumbFit 400 200 180 180).2 :=
  ⟨by decide, by decide, by decide, by decide, by decide, by decide, by decide,
    template_cell_placement "storyboard"
      ⟨1200, 400,
       [⟨20, 20, 180, 180⟩, ⟨220, 20, 180, 180⟩, ⟨420, 20, 180, 180⟩,
        ⟨620, 20, 180, 180⟩, ⟨820, 20, 180, 180⟩, ⟨1020, 20, 180, 180⟩]⟩
      [⟨400, 200⟩, ⟨100, 100⟩] 1200
      ['#', 'F', 'F', 'F', 'F', 'F', 'F'] (255, 255, 255) 0 ⟨400, 200⟩
      ⟨20, 20, 180, 180⟩ (by decide) (by decide) (by decide) (by decide)
      (by decide) (by decide) (by decide)⟩

/-- C9 counterexample: `'0112233'` is not a well-formed `#RRGGBB` color (its
first character is not `#`), yet the call silently accepts it as
`(0x11, 0x22, 0x33)`: only the character pairs at indices 1-2, 3-4, 5-6 are
inspected.  Likewise `'#+1+2+3'` is accepted as `(1, 2, 3)` because
`int(s, 16)` takes signed slices. -/
theorem hex_malformed_accepted_counterexample :
    parseHexColor ['0', '1', '1', '2', '2', '3', '3'] = some (17, 34, 51) ∧
    specHexWellFormed ['0', '1', '1', '2', '2', '3', '3'] = false ∧
    parseHexColor ['#', '+', '1', '+', '2', '+', '3'] = some (1, 2, 3) ∧
    specHexWellFormed ['#', '+', '1', '+', '2', '+', '3'] = false := by
  refine ⟨by decide, by decide, by decide, by decide⟩

/-- C9 amended: every well-formed `#RRGGBB` string parses to its three byte
pairs, and the color conversion fails exactly when one of the three
inspected slices at indices 1-2, 3-4, 5-6 is not a valid Python
`int(-, 16)` literal (signs, surrounding whitespace and digit underscores
included) — the first character and anything beyond index 6 are ignored, so
some malformed strings are silently accepted. -/
theorem hex_parse_characterization (cs : List Char) :
    (specHexWellFormed cs = true →
      parseHexColor cs =
        some (((16 * hexDigitVal (cs.getD 1 ' ') + hexDigitVal (cs.getD 2 ' ') : Nat) : Int),
              ((16 * hexDigitVal (cs.getD 3 ' ') + hexDigitVal (cs.getD 4 ' ') : Nat) : Int),
              ((16 * hexDigitVal (cs.getD 5 ' ') + hexDigitVal (cs.getD 6 ' ') : Nat) : Int))) ∧
    (parseHexColor cs = none ↔
      (pyIntHex (pySlice cs 1 3) = none ∨ pyIntHex (pySlice cs 3 5) = none ∨
       pyIntHex (pySlice cs 5 7) = none)) := by
  constructor
  · exact parseHexColor_of_wellFormed
  · cases h1 : pyIntHex (pySlice cs 1 3) <;>
      cases h2 : pyIntHex (pySlice cs 3 5) <;>
        cases h3 : pyIntHex (pySlice cs 5 7) <;>
          simp [parseHexColor, h1, h2, h3]

theorem hex_parse_characterization_witness :
    (specHexWellFormed ['#', '1', 'A', '2', 'b', '3', 'C'] = true →
      parseHexColor ['#', '1', 'A', '2', 'b', '3', 'C'] =
        some (((16 * hexDigitVal (['#', '1', 'A', '2', 'b', '3', 'C'].getD 1 ' ') +
                hexDigitVal (['#', '1', 'A', '2', 'b', '3', 'C'].getD 2 ' ') : Nat) : Int),
              ((16 * hexDigitVal (['#', '1', 'A', '2', 'b', '3', 'C'].getD 3 ' ') +
                hexDigitVal (['#', '1', 'A', '2', 'b', '3', 'C'].getD 4 ' ') : Nat) : Int),
              ((16 * hexDigitVal (['#', '1', 'A', '2', 'b', '3', 'C'].getD 5 ' ') +
                hexDigitVal (['#', '1', 'A', '2', 'b', '3', 'C'].getD 6 ' ') : Nat) : Int))) ∧
    (parseHexColor ['#', '1', 'A', '2', 'b', '3', 'C'] = none ↔
      (pyIntHex (pySlice ['#', '1', 'A', '2', 'b', '3', 'C'] 1 3) = none ∨
       pyIntHex (pySlice ['#', '1', 'A', '2', 'b', '3', 'C'] 3 5) = none ∨
       pyIntHex (pySlice ['#', '1', 'A', '2', 'b', '3', 'C'] 5 7) = none)) :=
  hex_parse_characterization ['#', '1', 'A', '2', 'b', '3', 'C']

end Collage

